import Mathlib

/-!
Verification of tableflip: file-descriptor registry, handoff and upgrade controller

A shallow embedding of `fds.go`, `child.go`, `parent.go`, `pidfile.go` and
`current.go`.  Go maps are association lists, `*os.File` values are optional
file handles (`none` is the nil pointer), errors are optional messages (`none`
is the nil error), and the result of every system call an operation makes is
passed in as an argument.  Each operation returns, next to its result and the
new state, the list of effects it performed, in program order.
-/

namespace Tableflip

/-! ## Data model -/

/-- An open file, identified by its descriptor number. -/
abbrev File := Nat

/-- A value of Go type `*os.File`; `none` is the nil pointer. -/
abbrev FilePtr := Option File

/-- A `net.Listener`, `net.PacketConn` or `net.Conn` handed to the application. -/
abbrev Listener := Nat

/-- A Go `map[string]α`: the entries in some order. -/
abbrev GoMap (α : Type) := List (String × α)

/-- The two-valued read `v, ok := m[k]`. -/
def GoMap.get {α : Type} (m : GoMap α) (k : String) : Option α :=
  List.lookup k m

/-- The statement `delete(m, k)`. -/
def GoMap.delete {α : Type} (m : GoMap α) (k : String) : GoMap α :=
  m.filter (fun e => e.1 != k)

/-- The assignment `m[k] = v`. -/
def GoMap.set {α : Type} (m : GoMap α) (k : String) (v : α) : GoMap α :=
  (k, v) :: GoMap.delete m k

/-- The keys of a map. -/
def GoMap.keys {α : Type} (m : GoMap α) : List String :=
  m.map Prod.fst

/-- The one-valued read `m[k]` of a map of pointers: nil when the key is absent. -/
def GoMap.file (m : GoMap FilePtr) (k : String) : FilePtr :=
  (GoMap.get m k).getD none

/-- Go `errors.Wrap(err, msg)`: the message of the wrapped error. -/
def wrap (err msg : String) : String :=
  msg ++ ": " ++ err

/-- Go `os.NewFile(fd, name)`; a descriptor held in a `uintptr` that came from a
successful call is valid, so the result is not nil. -/
def NewFile (fd : Nat) : FilePtr :=
  some fd

/-- Everything the modelled code does to the world outside its own variables. -/
inductive Effect where
  /-- Call `net.FileListener(file)` -/
  | fileListener (file : File)
  /-- Call `net.FilePacketConn(file)` -/
  | filePacketConn (file : File)
  /-- Call `net.FileConn(file)` -/
  | fileConn (file : File)
  /-- Call `lc.Listen(ctx, network, addr)`: a new listening socket is created -/
  | listen (network addr : String)
  /-- Call `lc.ListenPacket(ctx, network, addr)`: a new packet socket is created -/
  | listenPacket (network addr : String)
  /-- Call of the user supplied `newconn(network, addr)` -/
  | newconn (network addr : String)
  /-- Call `fcntl(fd, F_DUPFD_CLOEXEC, 0)` -/
  | dup (fd : Nat)
  /-- Call `ln.Close()` on a listener or packet socket that was just created -/
  | closeListener (ln : Listener)
  /-- Call `file.Close()` -/
  | closeFile (file : FilePtr)
  /-- Statement `close(c.readyC)` -/
  | closeReadyC
  /-- Statement `close(c.exitC)` -/
  | closeExitC
  /-- Send `request <- err` -/
  | reply (request : Nat) (err : Option String)
  /-- Send `c.exitFd <- file` -/
  | putExitFd (file : FilePtr)
  /-- Call `syscall.CloseOnExec(fd)` -/
  | closeOnExec (fd : Nat)
  /-- Call `cmd.Start()` with these `ExtraFiles`, then `go c.writeNames(fdNames)` -/
  | start (extraFiles : List FilePtr) (fdNames : List String)
  /-- Call `baby.Kill()` -/
  | kill (pid : Nat)
  /-- Call `writePIDFile(path)` -/
  | writePID (path : String)
  /-- Call `file.Write(bytes)` -/
  | write (file : FilePtr) (bytes : List Nat)
  deriving DecidableEq, Repr

/-! ## `fds.go` -/

def ListenTCPKind : String := "listenertcp"

def ListenUDPKind : String := "listenerudp"

def ConnecTCPKind : String := "connectitcp"

/-- The registry `Fds`. -/
structure Fds where
  inherited : GoMap FilePtr
  used : GoMap FilePtr
  Reuseport : Bool
  deriving DecidableEq, Repr

/-- Results of the system calls of one `dupFd`. -/
structure DupSys where
  /-- Result of `fcntl(fd, F_DUPFD_CLOEXEC, 0)`: the new descriptor, or the errno -/
  fcntl : Except String Nat
  /-- Error of `setsockopt(dupfd, SO_REUSEADDR)` -/
  reuseAddr : Option String
  /-- Error of `setsockopt(dupfd, SO_REUSEPORT)` -/
  reusePort : Option String

/-- Method `Fds.dupFd`. -/
def Fds.dupFd (f : Fds) (_fd : Nat) (_name : String) (sys : DupSys) : Except String FilePtr :=
  match sys.fcntl with
  | .error e => .error (wrap e "can't dup fd using F_DUPFD_CLOEXEC")
  | .ok dupfd =>
    if f.Reuseport then
      match sys.reuseAddr with
      | some e => .error (wrap e "can't set SO_REUSEADDR")
      | none =>
        match sys.reusePort with
        | some e => .error (wrap e "can't set SO_REUSEPORT")
        | none => .ok (NewFile dupfd)
    else .ok (NewFile dupfd)

/-- Method `Fds.addConn`: the error it returns and the registry afterwards. -/
def Fds.addConn (f : Fds) (key : String) (fd : Nat) (sys : DupSys) : Option String × Fds :=
  match f.dupFd fd key sys with
  | .error e => (some (wrap e ("can't dup " ++ key)), f)
  | .ok file =>
    (none, { f with inherited := f.inherited.delete key, used := f.used.set key file })

/-- What a registry operation returns: its Go result, the registry afterwards
and the effects it had, in order. -/
structure Out (α : Type) where
  result : Except String α
  fds : Fds
  trace : List Effect

/-- Results of the system calls of one `ListenTCP` or `ListenUDP`. -/
structure ListenSys where
  /-- Result of `net.FileListener(file)` (`net.FilePacketConn(file)`): error, or a listener that may be nil -/
  fromFile : Except String (Option Listener)
  /-- Result of `lc.Listen` (`lc.ListenPacket`), the `Control` callback included:
  error, or the listener and the descriptor the callback saw (`lfd`) -/
  listen : Except String (Listener × Nat)
  dup : DupSys

/-- The key `ListenTCP` computes. -/
def listenTCPKey (network addr : String) : String :=
  ListenTCPKind ++ ":" ++ network ++ ":" ++ addr

/-- The key `ListenUDP` computes. -/
def listenUDPKey (network addr : String) : String :=
  ListenUDPKind ++ ":" ++ network ++ ":" ++ addr

/-- The key `ConnectTCP` computes from the key its caller passes. -/
def connectTCPKey (network addr key : String) : String :=
  ConnecTCPKind ++ ":" ++ network ++ ":" ++ addr ++ ":" ++ key

/-- Method `Fds.ListenTCP`. -/
def Fds.ListenTCP (f : Fds) (network addr : String) (sys : ListenSys) : Out Listener :=
  let key := listenTCPKey network addr
  let fresh (g : Fds) (tr : List Effect) : Out Listener :=
    match sys.listen with
    | .error e => ⟨.error (wrap e "can't create new listener"), g, tr ++ [.listen network addr]⟩
    | .ok (ln, lfd) =>
      match g.addConn key lfd sys.dup with
      | (some e, g2) =>
        ⟨.error e, g2, tr ++ [.listen network addr, .dup lfd, .closeListener ln]⟩
      | (none, g2) => ⟨.ok ln, g2, tr ++ [.listen network addr, .dup lfd]⟩
  match f.inherited.file key with
  | some file =>
    match sys.fromFile with
    | .error e =>
      ⟨.error (wrap e ("can't inherit listener " ++ network ++ " " ++ addr)), f,
        [.fileListener file]⟩
    | .ok ln =>
      let g : Fds :=
        { f with inherited := f.inherited.delete key, used := f.used.set key (some file) }
      match ln with
      | some l => ⟨.ok l, g, [.fileListener file]⟩
      | none => fresh g [.fileListener file]
  | none => fresh f []

/-- Method `Fds.ListenUDP`. -/
def Fds.ListenUDP (f : Fds) (network addr : String) (sys : ListenSys) : Out Listener :=
  let key := listenUDPKey network addr
  let fresh (g : Fds) (tr : List Effect) : Out Listener :=
    match sys.listen with
    | .error e => ⟨.error (wrap e "ListenPacket"), g, tr ++ [.listenPacket network addr]⟩
    | .ok (ln, lfd) =>
      match g.addConn key lfd sys.dup with
      | (some e, g2) =>
        ⟨.error (wrap e "addConn"), g2,
          tr ++ [.listenPacket network addr, .dup lfd, .closeListener ln]⟩
      | (none, g2) => ⟨.ok ln, g2, tr ++ [.listenPacket network addr, .dup lfd]⟩
  match f.inherited.file key with
  | some file =>
    match sys.fromFile with
    | .error e =>
      ⟨.error (wrap e ("can't inherit listener " ++ network ++ " " ++ addr)), f,
        [.filePacketConn file]⟩
    | .ok ln =>
      let g : Fds :=
        { f with inherited := f.inherited.delete key, used := f.used.set key (some file) }
      match ln with
      | some l => ⟨.ok l, g, [.filePacketConn file]⟩
      | none => fresh g [.filePacketConn file]
  | none => fresh f []

/-- Results of the calls of one `ConnectTCP`. -/
structure ConnectSys where
  /-- Call `net.FileConn(file)` -/
  fromFile : Except String Listener
  /-- Result of the user supplied `newconn(network, addr)`: error, or the connection and its descriptor -/
  newconn : Except String (Listener × Nat)
  dup : DupSys

/-- Method `Fds.ConnectTCP`. -/
def Fds.ConnectTCP (f : Fds) (network addr key : String) (sys : ConnectSys) : Out Listener :=
  let key := connectTCPKey network addr key
  let fresh (tr : List Effect) : Out Listener :=
    match sys.newconn with
    | .error e =>
      ⟨.error (wrap e ("can't newconn " ++ ConnecTCPKind ++ " (" ++ network ++ " " ++ addr ++ ")")),
        f, tr ++ [.newconn network addr]⟩
    | .ok (conn, fd) =>
      match f.addConn key fd sys.dup with
      | (some e, g) =>
        ⟨.error (wrap e ("can't dup " ++ ConnecTCPKind ++ " (" ++ network ++ " " ++ addr ++ ")")),
          g, tr ++ [.newconn network addr, .dup fd]⟩
      | (none, g) => ⟨.ok conn, g, tr ++ [.newconn network addr, .dup fd]⟩
  match f.inherited.get key with
  | some (some file) =>
    match sys.fromFile with
    | .ok conn =>
      ⟨.ok conn,
        { f with inherited := f.inherited.delete key, used := f.used.set key (some file) },
        [.fileConn file]⟩
    | .error _ => fresh [.fileConn file]
  | _ => fresh []

/-- Method `Fds.closeInherited`. -/
def Fds.closeInherited (f : Fds) : Fds × List Effect :=
  ({ f with inherited := [] }, f.inherited.map (fun e => Effect.closeFile e.2))

/-- Method `Fds.closeUsed`. -/
def Fds.closeUsed (f : Fds) : Fds × List Effect :=
  ({ f with used := [] }, f.used.map (fun e => Effect.closeFile e.2))

/-- Method `Fds.copy`. -/
def Fds.copy (f : Fds) : GoMap FilePtr :=
  f.used.foldl (fun files e => GoMap.set files e.1 e.2) []

/-! ## `child.go` -/

/-- The byte `notifyReady` of `parent.go`. -/
def notifyReady : Nat := 42

/-- The constant `sentinelEnvVar` of `parent.go`. -/
def sentinelEnvVar : String := "TABLEFLIP_HAS_PARENT_7DIU3"

/-- The handle `child` of a started successor. -/
structure child where
  /-- Field `cmd.Process.Pid` -/
  pid : Nat
  /-- Field `cmd.ExtraFiles` -/
  extraFiles : List FilePtr
  /-- Field `cmd.Env`: the entry this package appends to the environment -/
  env : String
  readyPipeRead : FilePtr
  fdNamesPipeWrite : FilePtr
  deriving DecidableEq, Repr

/-- Results of the system calls of one `ForkChild`. -/
structure ForkSys where
  /-- Result of the first `os.Pipe()`: read end and write end -/
  readyPipe : Except String (File × File)
  /-- Result of the second `os.Pipe()`: read end and write end -/
  fdNamesPipe : Except String (File × File)
  /-- Result of `cmd.Start()`: the process id of the successor -/
  start : Except String Nat
  /-- Value of `os.Args[0]` -/
  argv0 : String

/-- A sequence in which `for k, v := range m` may visit the map `m`: every entry
once, in any order. -/
def GoMap.RangeOf {α : Type} (m : GoMap α) (ranged : List (String × α)) : Prop :=
  ranged.Perm m

/-- The loop of `ForkChild` over the entries `range inheritedFiles` yields: the
names and the extra files, both appended to in the same iteration. -/
def forkLists (readyPipeWrite fdNamesPipeRead : FilePtr) (ranged : List (String × FilePtr)) :
    List String × List FilePtr :=
  ranged.foldl (fun acc e => (acc.1 ++ [e.1], acc.2 ++ [e.2]))
    ([], [readyPipeWrite, fdNamesPipeRead])

/-- Function `ForkChild`; `ranged` is the sequence in which the `range` loop
visits `inheritedFiles`. -/
def ForkChild (ranged : List (String × FilePtr)) (sys : ForkSys) :
    Except String child × List Effect :=
  match sys.readyPipe with
  | .error e => (.error (wrap e "pipe failed"), [])
  | .ok (readyPipeRead, readyPipeWrite) =>
    match sys.fdNamesPipe with
    | .error e =>
      (.error (wrap e "pipe failed"),
        [.closeFile (some readyPipeRead), .closeFile (some readyPipeWrite)])
    | .ok (fdNamesPipeRead, fdNamesPipeWrite) =>
      let lists := forkLists (some readyPipeWrite) (some fdNamesPipeRead) ranged
      match sys.start with
      | .error e =>
        (.error (wrap e ("can't start process " ++ sys.argv0)),
          [.closeFile (some readyPipeRead), .closeFile (some readyPipeWrite),
            .closeFile (some fdNamesPipeRead), .closeFile (some fdNamesPipeWrite)])
      | .ok pid =>
        (.ok
          { pid := pid, extraFiles := lists.2, env := sentinelEnvVar ++ "=yes",
            readyPipeRead := some readyPipeRead, fdNamesPipeWrite := some fdNamesPipeWrite },
          [.start lists.2 lists.1])

/-- Method `child.String` (named in lower case, next to the type `String`). -/
def child.string (c : child) : String :=
  toString c.pid

/-- Method `child.waitReady`: what it puts on the channel `ready`, given the
byte its one `Read` returned (`none` when the read returned no byte). -/
def child.waitReady (c : child) (read : Option Nat) : Option FilePtr :=
  match read with
  | some b => if b = notifyReady then some c.fdNamesPipeWrite else none
  | none => none

/-- Method `child.waitExit`, run when the successor process has exited with
wait result `err`: what it puts on the channel `finished`, and the two pipe
ends it closes afterwards. -/
def child.waitExit (c : child) (err : Option String) : Option String × List Effect :=
  (err, [.closeFile c.readyPipeRead, .closeFile c.fdNamesPipeWrite])

/-- The gob encoding of a list of names, as far as the code depends on it. -/
structure Gob where
  encode : List String → List Nat
  decode : List Nat → Except String (List String)

/-- Method `child.writeNames`: the bytes it writes to the name pipe.  A nil
slice is encoded as the empty slice; both are the empty list here. -/
def child.writeNames (gob : Gob) (fdNames : List String) : List Nat :=
  match fdNames with
  | [] => gob.encode []
  | _ => gob.encode fdNames

/-- The descriptor table `os/exec` gives the started process: entry `j` of
`ExtraFiles` becomes descriptor `3 + j`; 0, 1 and 2 are the standard streams. -/
def childFd (extraFiles : List FilePtr) (fd : Nat) : Option FilePtr :=
  if fd < 3 then none else extraFiles[fd - 3]?

/-! ## `parent.go` -/

/-- The handle `parent` of the process that started this one. -/
structure parent where
  readyPipeWrite : FilePtr
  /-- Whether the channel `exited` has been closed by the goroutine that drains the name pipe -/
  exited : Bool
  deriving DecidableEq, Repr

/-- The loop of `FindParent` over the decoded names, from index `i` on. -/
def bindNames : Nat → List String → GoMap FilePtr → GoMap FilePtr × List Effect
  | _, [], files => (files, [])
  | i, key :: rest, files =>
    let fd := 5 + i
    let r := bindNames (i + 1) rest (files.set key (NewFile fd))
    (r.1, Effect.closeOnExec fd :: r.2)

/-- What `FindParent` reads from its environment. -/
structure FindSys where
  /-- Value of `os.Getenv(sentinelEnvVar)` -/
  sentinel : String
  /-- The bytes that arrive on descriptor 4 -/
  pipe : List Nat

/-- Function `FindParent`. -/
def FindParent (gob : Gob) (sys : FindSys) :
    Except String (Option parent × GoMap FilePtr) × List Effect :=
  if sys.sentinel = "" then (.ok (none, []), [])
  else
    match gob.decode sys.pipe with
    | .error e => (.error (wrap e "can't decode names from parent process"), [])
    | .ok names =>
      let r := bindNames 0 names []
      (.ok (some { readyPipeWrite := NewFile 3, exited := false }, r.1), r.2)

/-- Method `parent.sendReady`, given the error of its `Write`; the deferred
`Close` runs last. -/
def parent.sendReady (ps : parent) (write : Option String) : Option String × List Effect :=
  match write with
  | some e =>
    (some (wrap e "can't notify parent process"),
      [.write ps.readyPipeWrite [notifyReady], .closeFile ps.readyPipeWrite])
  | none => (none, [.write ps.readyPipeWrite [notifyReady], .closeFile ps.readyPipeWrite])

/-! ## `pidfile.go` -/

/-- Go `filepath.Split`: the path up to and including the last separator, and the rest. -/
def filepathSplit (path : String) : String × String :=
  let cs := path.toList
  let file := (cs.reverse.takeWhile (fun c => c != '/')).reverse
  (String.mk (cs.take (cs.length - file.length)), String.mk file)

/-- What one `writePIDFile` meets in the file system. -/
structure PidSys where
  /-- Value of the package variable `initialWD` -/
  initialWD : String
  /-- Error of `ioutil.TempFile(dir, file)` -/
  tempFile : Option String
  /-- Error of `fh.WriteString` -/
  writeString : Option String
  /-- Error of `os.Rename(fh.Name(), path)` -/
  rename : Option String

/-- Function `writePIDFile`: the error it returns. -/
def writePIDFile (path : String) (sys : PidSys) : Option String :=
  let dir := (filepathSplit path).1
  let dir := if dir = "" then sys.initialWD else dir
  if dir = "" then some "empty initial working directory"
  else
    match sys.tempFile with
    | some e => some e
    | none =>
      match sys.writeString with
      | some e => some e
      | none => sys.rename

/-! ## `current.go` -/

/-- The constant `DefaultUpgradeTimeout`, in nanoseconds. -/
def DefaultUpgradeTimeout : Int := 60000000000

structure Options where
  UpgradeTimeout : Int
  PIDFile : String
  Reuseport : Bool
  deriving DecidableEq, Repr

/-- The controller `Current`.  A channel that only ever gets closed is the
flag "has been closed"; the buffered channel `exitFd` is its content. -/
structure Current where
  fds : Fds
  opts : Options
  parent : Option parent
  /-- Whether `readyOnce` has run its function -/
  readyOnce : Bool
  /-- Whether `readyC` is closed -/
  readyC : Bool
  /-- Whether `exitC` is closed -/
  exitC : Bool
  exitFd : List FilePtr
  deriving DecidableEq, Repr

/-- Function `New`, up to `go c.run()`; `stdEnvUpgrader` says whether the
package variable of that name is already set. -/
def New (opts : Options) (stdEnvUpgrader : Bool) (initialWD : String) (gob : Gob)
    (sys : FindSys) : Except String Current × List Effect :=
  if stdEnvUpgrader then (.error "tableflip: only a single Current allowed", [])
  else if initialWD = "" then (.error "couldn't determine initial working directory", [])
  else
    match FindParent gob sys with
    | (.error e, tr) => (.error e, tr)
    | (.ok (parent, inherited), tr) =>
      let opts :=
        if opts.UpgradeTimeout ≤ 0 then { opts with UpgradeTimeout := DefaultUpgradeTimeout }
        else opts
      (.ok
        { fds := { inherited := inherited, used := [], Reuseport := opts.Reuseport },
          opts := opts, parent := parent, readyOnce := false, readyC := false, exitC := false,
          exitFd := [] },
        tr)

/-- Results of the system calls of one `Ready`. -/
structure ReadySys where
  pid : PidSys
  /-- Error of `ps.readyPipeWrite.Write` -/
  write : Option String

/-- Method `Current.Ready`: the error it returns, the controller afterwards and
its effects. -/
def Current.Ready (c : Current) (sys : ReadySys) : Option String × Current × List Effect :=
  let once : Current × List Effect :=
    if c.readyOnce then (c, [])
    else
      let r := c.fds.closeInherited
      ({ c with fds := r.1, readyC := true, readyOnce := true }, r.2 ++ [.closeReadyC])
  let c1 := once.1
  let pidErr : Option String × List Effect :=
    if c1.opts.PIDFile != "" then
      (writePIDFile c1.opts.PIDFile sys.pid, [.writePID c1.opts.PIDFile])
    else (none, [])
  match pidErr.1 with
  | some e => (some (wrap e "tableflip: can't write PID file"), c1, once.2 ++ pidErr.2)
  | none =>
    match c1.parent with
    | none => (none, c1, once.2 ++ pidErr.2)
    | some ps =>
      let r := ps.sendReady sys.write
      (r.1, c1, once.2 ++ pidErr.2 ++ r.2)

/-- A case the `select` of `doUpgrade` may take. -/
inductive BabyEvent where
  /-- Case `request := <-c.upgradeC` -/
  | request (request : Nat)
  /-- Case `err := <-baby.finished`, with what `cmd.Wait()` returned -/
  | finished (err : Option String)
  /-- Case `<-c.exitC` -/
  | exitC
  /-- Case `<-readyTimeout` -/
  | timeout
  /-- Case `file := <-baby.ready` -/
  | ready
  deriving DecidableEq, Repr

/-- What happens around one call of `doUpgrade`. -/
structure Attempt where
  /-- The sequence in which `ForkChild` ranges over the copy of the used files -/
  ranged : List (String × FilePtr)
  fork : ForkSys
  /-- The byte `waitReady` reads from the readiness pipe, if any -/
  readyByte : Option Nat
  /-- The cases the `select` of `doUpgrade` takes, in order -/
  events : List BabyEvent

/-- The loop of `doUpgrade`.  A case whose channel cannot deliver (`exitC` not
closed, nothing sent on `ready`) is not taken.  The result is `none` while the
loop is still waiting after the last event. -/
def doUpgradeLoop (c : Current) (baby : child) (ready : Option FilePtr) :
    List BabyEvent → Option (Except String FilePtr) × List Effect
  | [] => (none, [])
  | .request request :: rest =>
    let r := doUpgradeLoop c baby ready rest
    (r.1, Effect.reply request (some "upgrade in progress") :: r.2)
  | .finished none :: _ => (some (.error ("baby " ++ baby.string ++ " exited")), [])
  | .finished (some e) :: _ =>
    (some (.error (wrap e ("baby " ++ baby.string ++ " exited"))), [])
  | .exitC :: rest =>
    if c.exitC then (some (.error "terminating"), [.kill baby.pid])
    else doUpgradeLoop c baby ready rest
  | .timeout :: _ =>
    (some (.error ("new baby " ++ baby.string ++ " timed out")), [.kill baby.pid])
  | .ready :: rest =>
    match ready with
    | some file => (some (.ok file), [])
    | none => doUpgradeLoop c baby ready rest

/-- Method `Current.doUpgrade`. -/
def Current.doUpgrade (c : Current) (a : Attempt) :
    Option (Except String FilePtr) × List Effect :=
  match ForkChild a.ranged a.fork with
  | (.error e, tr) => (some (.error (wrap e "can't start baby")), tr)
  | (.ok baby, tr) =>
    let r := doUpgradeLoop c baby (baby.waitReady a.readyByte) a.events
    (r.1, tr ++ r.2)

/-- A case the `select` of `run` may take. -/
inductive RunEvent where
  /-- Case `<-parentExited` -/
  | parentExited
  /-- Case `<-currentReady` -/
  | currentReady
  /-- Case `<-c.exitC` -/
  | exitC
  /-- Case `request := <-c.upgradeC`, and what happens during the attempt -/
  | upgrade (request : Nat) (a : Attempt)

/-- Where `run` is. -/
inductive Status where
  /-- In the `select` of `run` -/
  | selecting
  /-- In the `select` of `doUpgrade`, which takes no further case -/
  | waiting
  /-- Returned; the deferred `close(c.exitC)` has run -/
  | returned
  deriving DecidableEq, Repr

/-- The controller together with the local variables of `run`. -/
structure RunState where
  c : Current
  /-- Whether the local `parentExited` is not nil -/
  parentExited : Bool
  /-- Whether the local `currentReady` is not nil -/
  currentReady : Bool
  status : Status
  deriving DecidableEq, Repr

/-- The state of `run` when it reaches its loop. -/
def Current.runInit (c : Current) : RunState :=
  { c := c, parentExited := c.parent.isSome, currentReady := true, status := .selecting }

/-- The return of `run`: the deferred `close(c.exitC)`. -/
def runReturn (s : RunState) : RunState :=
  { s with c := { s.c with exitC := true }, status := .returned }

/-- One iteration of the loop of `run` that takes the case `e`.  A case whose
channel cannot deliver (a nil channel, or one that is not closed) is not taken. -/
def runSelect (s : RunState) (e : RunEvent) : RunState × List Effect :=
  match e with
  | .parentExited =>
    match s.c.parent with
    | some ps =>
      if s.parentExited && ps.exited then ({ s with parentExited := false }, []) else (s, [])
    | none => (s, [])
  | .currentReady =>
    if s.currentReady && s.c.readyC then ({ s with currentReady := false }, []) else (s, [])
  | .exitC =>
    if s.c.exitC then
      let r := s.c.fds.closeUsed
      (runReturn { s with c := { s.c with fds := r.1 } }, r.2 ++ [.closeExitC])
    else (s, [])
  | .upgrade request a =>
    if s.currentReady then (s, [.reply request (some "process is not ready yet")])
    else if s.parentExited then (s, [.reply request (some "parent hasn't exited")])
    else
      match s.c.doUpgrade a with
      | (none, tr) => ({ s with status := .waiting }, tr)
      | (some (.error err), tr) =>
        (s, tr ++ [.reply request (some err), .writePID s.c.opts.PIDFile])
      | (some (.ok file), tr) =>
        let r := s.c.fds.closeUsed
        (runReturn { s with c := { s.c with fds := r.1, exitFd := s.c.exitFd ++ [file] } },
          tr ++ [.reply request none, .putExitFd file] ++ r.2 ++ [.closeExitC])

/-- A call of one of the registry operations, with the results of its system calls. -/
inductive FdsOp where
  | listenTCP (network addr : String) (sys : ListenSys)
  | listenUDP (network addr : String) (sys : ListenSys)
  | connectTCP (network addr key : String) (sys : ConnectSys)
  | copy
  | closeInherited
  | closeUsed

/-- The registry after one operation, whether it succeeded or failed. -/
def FdsOp.apply (f : Fds) : FdsOp → Fds
  | .listenTCP network addr sys => (f.ListenTCP network addr sys).fds
  | .listenUDP network addr sys => (f.ListenUDP network addr sys).fds
  | .connectTCP network addr key sys => (f.ConnectTCP network addr key sys).fds
  | .copy => f
  | .closeInherited => f.closeInherited.1
  | .closeUsed => f.closeUsed.1

/-- The registry after a sequence of operations. -/
def Fds.after (f : Fds) (ops : List FdsOp) : Fds :=
  ops.foldl FdsOp.apply f

/-- Something that happens to the controller: a step of `run`, or a call from
another goroutine. -/
inductive Action where
  /-- The loop of `run` takes a case of its `select` -/
  | select (e : RunEvent)
  /-- The application calls `Ready` -/
  | callReady (sys : ReadySys)
  /-- The goroutine started by `FindParent` reaches `close(exited)` -/
  | parentGone
  /-- The application calls an operation of the registry -/
  | fds (op : FdsOp)

/-- One action. A `select` is a step of `run` only while `run` is in its loop. -/
def step (s : RunState) (a : Action) : RunState × List Effect :=
  match a with
  | .select e =>
    match s.status with
    | .selecting => runSelect s e
    | _ => (s, [])
  | .callReady sys =>
    let r := s.c.Ready sys
    ({ s with c := r.2.1 }, r.2.2)
  | .parentGone =>
    ({ s with c := { s.c with parent := s.c.parent.map (fun ps => { ps with exited := true }) } },
      [])
  | .fds op => ({ s with c := { s.c with fds := FdsOp.apply s.c.fds op } }, [])

/-- A sequence of actions: the state afterwards and all effects in order. -/
def exec : RunState → List Action → RunState × List Effect
  | s, [] => (s, [])
  | s, a :: rest =>
    let r := step s a
    let r2 := exec r.1 rest
    (r2.1, r.2 ++ r2.2)


/-- The replies among some effects: the request and what it was sent, in order. -/
def replies : List Effect → List (Nat × Option String)
  | [] => []
  | .reply request err :: rest => (request, err) :: replies rest
  | _ :: rest => replies rest

/-- The number of successors started among some effects. -/
def starts : List Effect → Nat
  | [] => 0
  | .start _ _ :: rest => starts rest + 1
  | _ :: rest => starts rest

/-- The requests the loop of `doUpgrade` takes from the inbox before it returns. -/
def takenInLoop (c : Current) (ready : Option FilePtr) : List BabyEvent → List Nat
  | [] => []
  | .request request :: rest => request :: takenInLoop c ready rest
  | .finished _ :: _ => []
  | .exitC :: rest => if c.exitC then [] else takenInLoop c ready rest
  | .timeout :: _ => []
  | .ready :: rest =>
    match ready with
    | some _ => []
    | none => takenInLoop c ready rest

/-- The requests `doUpgrade` takes from the inbox. -/
def Current.takenInUpgrade (c : Current) (a : Attempt) : List Nat :=
  match ForkChild a.ranged a.fork with
  | (.error _, _) => []
  | (.ok baby, _) => takenInLoop c (baby.waitReady a.readyByte) a.events

/-- The registry after `delete(f.inherited, key); f.used[key] = file`. -/
def Fds.moved (f : Fds) (key : String) (file : FilePtr) : Fds :=
  { f with inherited := f.inherited.delete key, used := f.used.set key file }

/-- No name is a key of both maps. -/
def Fds.Disjoint (f : Fds) : Prop :=
  ∀ k, ¬ (k ∈ f.inherited.keys ∧ k ∈ f.used.keys)

/-- The inverse of the encoding of `lengthPrefixed`. -/
def decodeNames : Nat → List Nat → List String → Except String (List String)
  | _, [], acc => .ok acc.reverse
  | 0, _ :: _, _ => .error "EOF"
  | fuel + 1, n :: rest, acc =>
    if rest.length < n then .error "unexpected EOF"
    else decodeNames fuel (rest.drop n) (String.mk ((rest.take n).map Char.ofNat) :: acc)

/-- A stand-in for gob in examples: every name as its length followed by its characters. -/
def lengthPrefixed : Gob where
  encode names := (names.map (fun n => n.length :: n.toList.map Char.toNat)).flatten
  decode bytes := decodeNames bytes.length bytes []

/-! ## Maps -/

theorem GoMap.get_delete_self {α : Type} (m : GoMap α) (k : String) :
    (GoMap.delete m k).get k = none := by
  induction m with
  | nil => rfl
  | cons e m ih =>
    obtain ⟨a, b⟩ := e
    simp only [GoMap.delete, GoMap.get] at ih ⊢
    by_cases h : a = k
    · simpa [List.filter_cons, h] using ih
    · have h2 : (k == a) = false := by simpa using fun h3 => h h3.symm
      simpa [List.filter_cons, h, List.lookup_cons, h2] using ih

theorem GoMap.get_delete_ne {α : Type} (m : GoMap α) (k j : String) (hne : j ≠ k) :
    (GoMap.delete m k).get j = m.get j := by
  induction m with
  | nil => rfl
  | cons e m ih =>
    obtain ⟨a, b⟩ := e
    simp only [GoMap.delete, GoMap.get] at ih ⊢
    by_cases h : a = k
    · subst h
      have h2 : (j == a) = false := by simpa using hne
      simpa [List.filter_cons, List.lookup_cons, h2] using ih
    · by_cases h3 : j = a
      · simp [List.filter_cons, h, List.lookup_cons, h3]
      · have h2 : (j == a) = false := by simpa using h3
        simpa [List.filter_cons, h, List.lookup_cons, h2] using ih

theorem GoMap.get_set_self {α : Type} (m : GoMap α) (k : String) (v : α) :
    (GoMap.set m k v).get k = some v := by
  simp [GoMap.set, GoMap.get, List.lookup]

theorem GoMap.get_set_ne {α : Type} (m : GoMap α) (k j : String) (v : α) (hne : j ≠ k) :
    (GoMap.set m k v).get j = m.get j := by
  have h2 : (j == k) = false := by simpa using hne
  have h := GoMap.get_delete_ne m k j hne
  simpa [GoMap.set, GoMap.get, List.lookup, h2] using h

theorem GoMap.mem_keys_iff {α : Type} (m : GoMap α) (k : String) :
    k ∈ m.keys ↔ (m.get k).isSome = true := by
  induction m with
  | nil => simp [GoMap.keys, GoMap.get]
  | cons e m ih =>
    by_cases h : k = e.1
    · simp [GoMap.keys, GoMap.get, List.lookup, h]
    · have h2 : (k == e.1) = false := by simpa using h
      simp [GoMap.keys, GoMap.get, List.lookup, h, h2]

theorem GoMap.keys_delete_subset {α : Type} (m : GoMap α) (k j : String)
    (h : j ∈ (GoMap.delete m k).keys) : j ∈ m.keys := by
  simp only [GoMap.keys, GoMap.delete, List.mem_map, List.mem_filter] at *
  obtain ⟨e, ⟨he, _⟩, hj⟩ := h
  exact ⟨e, he, hj⟩

theorem GoMap.not_mem_keys_delete {α : Type} (m : GoMap α) (k : String) :
    k ∉ (GoMap.delete m k).keys := by
  rw [GoMap.mem_keys_iff, GoMap.get_delete_self]
  simp

theorem GoMap.mem_keys_set {α : Type} (m : GoMap α) (k j : String) (v : α)
    (h : j ∈ (GoMap.set m k v).keys) : j = k ∨ j ∈ m.keys := by
  simp only [GoMap.set, GoMap.keys, List.map_cons, List.mem_cons] at h
  rcases h with h | h
  · exact Or.inl h
  · exact Or.inr (GoMap.keys_delete_subset m k j h)


/-! ## The registry -/

theorem Fds.addConn_eq (f g : Fds) (key : String) (fd : Nat) (sys : DupSys) (r : Option String)
    (h : f.addConn key fd sys = (r, g)) :
    (r ≠ none ∧ g = f) ∨ (r = none ∧ ∃ file, g = f.moved key file) := by
  unfold Fds.addConn at h
  cases h2 : f.dupFd fd key sys with
  | error e =>
    rw [h2] at h
    simp only [Prod.mk.injEq] at h
    exact Or.inl ⟨by rw [← h.1]; simp, h.2.symm⟩
  | ok file =>
    rw [h2] at h
    simp only [Prod.mk.injEq] at h
    exact Or.inr ⟨h.1.symm, file, h.2.symm⟩

/-- The registry after `ListenTCP`: untouched and then the call failed, or the
key was moved once, or twice. -/
theorem Fds.ListenTCP_shape (f : Fds) (network addr : String) (sys : ListenSys) :
    ((f.ListenTCP network addr sys).fds = f ∧
      ∀ ln, (f.ListenTCP network addr sys).result ≠ .ok ln) ∨
    (∃ v, (f.ListenTCP network addr sys).fds = f.moved (listenTCPKey network addr) v) ∨
    (∃ v w, (f.ListenTCP network addr sys).fds =
      (f.moved (listenTCPKey network addr) v).moved (listenTCPKey network addr) w) := by
  unfold Fds.ListenTCP
  simp only
  repeat' split
  all_goals first
    | exact Or.inl ⟨rfl, by simp⟩
    | exact Or.inr (Or.inl ⟨_, rfl⟩)
    | skip
  all_goals
    rename_i hadd
    rcases Fds.addConn_eq _ _ _ _ _ _ hadd with ⟨h1, h2⟩ | ⟨h1, file, h2⟩
    all_goals first
      | exact (h1 rfl).elim
      | exact Or.inr (Or.inl ⟨_, h2⟩)
      | exact Or.inr (Or.inr ⟨_, _, h2⟩)
      | exact Or.inl ⟨h2, by simp⟩

theorem Fds.ListenUDP_shape (f : Fds) (network addr : String) (sys : ListenSys) :
    ((f.ListenUDP network addr sys).fds = f ∧
      ∀ ln, (f.ListenUDP network addr sys).result ≠ .ok ln) ∨
    (∃ v, (f.ListenUDP network addr sys).fds = f.moved (listenUDPKey network addr) v) ∨
    (∃ v w, (f.ListenUDP network addr sys).fds =
      (f.moved (listenUDPKey network addr) v).moved (listenUDPKey network addr) w) := by
  unfold Fds.ListenUDP
  simp only
  repeat' split
  all_goals first
    | exact Or.inl ⟨rfl, by simp⟩
    | exact Or.inr (Or.inl ⟨_, rfl⟩)
    | skip
  all_goals
    rename_i hadd
    rcases Fds.addConn_eq _ _ _ _ _ _ hadd with ⟨h1, h2⟩ | ⟨h1, file, h2⟩
    all_goals first
      | exact (h1 rfl).elim
      | exact Or.inr (Or.inl ⟨_, h2⟩)
      | exact Or.inr (Or.inr ⟨_, _, h2⟩)
      | exact Or.inl ⟨h2, by simp⟩

theorem Fds.ConnectTCP_shape (f : Fds) (network addr key : String) (sys : ConnectSys) :
    ((f.ConnectTCP network addr key sys).fds = f ∧
      ∀ conn, (f.ConnectTCP network addr key sys).result ≠ .ok conn) ∨
    (∃ v, (f.ConnectTCP network addr key sys).fds =
      f.moved (connectTCPKey network addr key) v) := by
  unfold Fds.ConnectTCP
  simp only
  repeat' split
  all_goals first
    | exact Or.inl ⟨rfl, by simp⟩
    | exact Or.inr ⟨_, rfl⟩
    | skip
  all_goals
    rename_i hadd
    rcases Fds.addConn_eq _ _ _ _ _ _ hadd with ⟨h1, h2⟩ | ⟨h1, file, h2⟩
    all_goals first
      | exact (h1 rfl).elim
      | exact Or.inr ⟨_, h2⟩
      | exact Or.inl ⟨h2, by simp⟩

theorem Fds.moved_used_get (f : Fds) (key : String) (v : FilePtr) :
    (f.moved key v).used.get key = some v :=
  GoMap.get_set_self _ _ _

theorem Fds.moved_disjoint (f : Fds) (key : String) (v : FilePtr) (h : f.Disjoint) :
    (f.moved key v).Disjoint := by
  intro k hk
  obtain ⟨h1, h2⟩ := hk
  rcases GoMap.mem_keys_set _ _ _ _ h2 with h3 | h3
  · subst h3
    exact GoMap.not_mem_keys_delete _ _ h1
  · exact h k ⟨GoMap.keys_delete_subset _ _ _ h1, h3⟩

theorem Fds.moved_inherited_subset (f : Fds) (key : String) (v : FilePtr) (k : String)
    (h : k ∈ (f.moved key v).inherited.keys) : k ∈ f.inherited.keys :=
  GoMap.keys_delete_subset _ _ _ h

/-- Every operation keeps the maps disjoint and adds no key to `inherited`. -/
theorem FdsOp.apply_spec (f : Fds) (op : FdsOp) (h : f.Disjoint) :
    (FdsOp.apply f op).Disjoint ∧
      ∀ k, k ∈ (FdsOp.apply f op).inherited.keys → k ∈ f.inherited.keys := by
  cases op with
  | listenTCP network addr sys =>
    simp only [FdsOp.apply]
    rcases Fds.ListenTCP_shape f network addr sys with ⟨h1, _⟩ | ⟨v, h1⟩ | ⟨v, w, h1⟩
    · rw [h1]; exact ⟨h, fun _ hk => hk⟩
    · rw [h1]; exact ⟨Fds.moved_disjoint _ _ _ h, Fds.moved_inherited_subset _ _ _⟩
    · rw [h1]
      exact ⟨Fds.moved_disjoint _ _ _ (Fds.moved_disjoint _ _ _ h), fun k hk =>
        Fds.moved_inherited_subset _ _ _ _ (Fds.moved_inherited_subset _ _ _ _ hk)⟩
  | listenUDP network addr sys =>
    simp only [FdsOp.apply]
    rcases Fds.ListenUDP_shape f network addr sys with ⟨h1, _⟩ | ⟨v, h1⟩ | ⟨v, w, h1⟩
    · rw [h1]; exact ⟨h, fun _ hk => hk⟩
    · rw [h1]; exact ⟨Fds.moved_disjoint _ _ _ h, Fds.moved_inherited_subset _ _ _⟩
    · rw [h1]
      exact ⟨Fds.moved_disjoint _ _ _ (Fds.moved_disjoint _ _ _ h), fun k hk =>
        Fds.moved_inherited_subset _ _ _ _ (Fds.moved_inherited_subset _ _ _ _ hk)⟩
  | connectTCP network addr key sys =>
    simp only [FdsOp.apply]
    rcases Fds.ConnectTCP_shape f network addr key sys with ⟨h1, _⟩ | ⟨v, h1⟩
    · rw [h1]; exact ⟨h, fun _ hk => hk⟩
    · rw [h1]; exact ⟨Fds.moved_disjoint _ _ _ h, Fds.moved_inherited_subset _ _ _⟩
  | copy => exact ⟨h, fun _ hk => hk⟩
  | closeInherited =>
    refine ⟨fun k hk => ?_, fun k hk => ?_⟩
    · simp [FdsOp.apply, Fds.closeInherited, GoMap.keys] at hk
    · simp [FdsOp.apply, Fds.closeInherited, GoMap.keys] at hk
  | closeUsed =>
    refine ⟨fun k hk => ?_, fun k hk => hk⟩
    simp [FdsOp.apply, Fds.closeUsed, GoMap.keys] at hk

theorem Fds.after_disjoint (ops : List FdsOp) (f : Fds) (h : f.Disjoint) :
    (f.after ops).Disjoint := by
  induction ops generalizing f with
  | nil => exact h
  | cons op ops ih => exact ih _ (FdsOp.apply_spec f op h).1

theorem Fds.after_inherited_subset (ops : List FdsOp) (f : Fds) (h : f.Disjoint) (k : String)
    (hk : k ∈ (f.after ops).inherited.keys) : k ∈ f.inherited.keys := by
  induction ops generalizing f with
  | nil => exact hk
  | cons op ops ih =>
    exact (FdsOp.apply_spec f op h).2 k (ih _ (FdsOp.apply_spec f op h).1 hk)

theorem Fds.after_append (ops ops2 : List FdsOp) (f : Fds) :
    f.after (ops ++ ops2) = (f.after ops).after ops2 := by
  simp [Fds.after, List.foldl_append]

/-- C6 as stated fails: the keys are not built with the kinds `listen-tcp`,
`listen-udp` and `connect-tcp`; a listener opened on an empty registry is
registered under `listenertcp:tcp:127.0.0.1:8080`, and nothing is registered
under `listen-tcp:tcp:127.0.0.1:8080`. -/
theorem key_grammar_counterexample :
    listenTCPKey "tcp" "127.0.0.1:8080" ≠ "listen-tcp:" ++ "tcp" ++ ":" ++ "127.0.0.1:8080" ∧
    listenUDPKey "udp" "127.0.0.1:53" ≠ "listen-udp:" ++ "udp" ++ ":" ++ "127.0.0.1:53" ∧
    connectTCPKey "tcp" "db:5432" "primary"
      ≠ "connect-tcp:" ++ "tcp" ++ ":" ++ "db:5432" ++ ":" ++ "primary" ∧
    ((Fds.ListenTCP ⟨[], [], false⟩ "tcp" "127.0.0.1:8080"
        ⟨.ok none, .ok (1, 7), ⟨.ok 8, none, none⟩⟩).fds.used
      = [("listenertcp:tcp:127.0.0.1:8080", some 8)]) := by
  decide


/-- C6 (amended): for every network, addr and user key, ListenTCP computes the
key "listenertcp:" + network + ":" + addr, ListenUDP computes "listenerudp:" +
network + ":" + addr and ConnectTCP computes "connectitcp:" + network + ":" +
addr + ":" + user key, and whenever one of them succeeds the registry holds a
used entry under that key. -/
theorem key_grammar (f : Fds) (network addr key : String) (tsys usys : ListenSys)
    (csys : ConnectSys) :
    listenTCPKey network addr = "listenertcp:" ++ network ++ ":" ++ addr ∧
    listenUDPKey network addr = "listenerudp:" ++ network ++ ":" ++ addr ∧
    connectTCPKey network addr key
      = "connectitcp:" ++ network ++ ":" ++ addr ++ ":" ++ key ∧
    (∀ ln, (f.ListenTCP network addr tsys).result = .ok ln →
      ((f.ListenTCP network addr tsys).fds.used.get
        ("listenertcp:" ++ network ++ ":" ++ addr)).isSome = true) ∧
    (∀ ln, (f.ListenUDP network addr usys).result = .ok ln →
      ((f.ListenUDP network addr usys).fds.used.get
        ("listenerudp:" ++ network ++ ":" ++ addr)).isSome = true) ∧
    (∀ conn, (f.ConnectTCP network addr key csys).result = .ok conn →
      ((f.ConnectTCP network addr key csys).fds.used.get
        ("connectitcp:" ++ network ++ ":" ++ addr ++ ":" ++ key)).isSome = true) := by
  refine ⟨rfl, rfl, rfl, fun ln h => ?_, fun ln h => ?_, fun conn h => ?_⟩
  · rcases Fds.ListenTCP_shape f network addr tsys with ⟨_, h1⟩ | ⟨v, h1⟩ | ⟨v, w, h1⟩
    · exact absurd h (h1 ln)
    · rw [h1]; exact (congrArg Option.isSome (Fds.moved_used_get _ _ _)).trans rfl
    · rw [h1]; exact (congrArg Option.isSome (Fds.moved_used_get _ _ _)).trans rfl
  · rcases Fds.ListenUDP_shape f network addr usys with ⟨_, h1⟩ | ⟨v, h1⟩ | ⟨v, w, h1⟩
    · exact absurd h (h1 ln)
    · rw [h1]; exact (congrArg Option.isSome (Fds.moved_used_get _ _ _)).trans rfl
    · rw [h1]; exact (congrArg Option.isSome (Fds.moved_used_get _ _ _)).trans rfl
  · rcases Fds.ConnectTCP_shape f network addr key csys with ⟨_, h1⟩ | ⟨v, h1⟩
    · exact absurd h (h1 conn)
    · rw [h1]; exact (congrArg Option.isSome (Fds.moved_used_get _ _ _)).trans rfl

/-- Witness of `key_grammar`: a successful ListenTCP on the empty registry. -/
theorem key_grammar_witness :
    (Fds.ListenTCP ⟨[], [], false⟩ "tcp" "127.0.0.1:8080"
        ⟨.ok none, .ok (1, 7), ⟨.ok 8, none, none⟩⟩).result = .ok 1 ∧
    ((Fds.ListenTCP ⟨[], [], false⟩ "tcp" "127.0.0.1:8080"
        ⟨.ok none, .ok (1, 7), ⟨.ok 8, none, none⟩⟩).fds.used.get
      ("listenertcp:" ++ "tcp" ++ ":" ++ "127.0.0.1:8080")).isSome = true :=
  ⟨rfl, (key_grammar ⟨[], [], false⟩ "tcp" "127.0.0.1:8080" "primary"
      ⟨.ok none, .ok (1, 7), ⟨.ok 8, none, none⟩⟩ ⟨.ok none, .ok (1, 7), ⟨.ok 8, none, none⟩⟩
      ⟨.ok 2, .ok (2, 9), ⟨.ok 10, none, none⟩⟩).2.2.2.1 1 rfl⟩

/-- C7: when `inherited` holds a file under the key of (network, addr) and a
listener can be built from it, ListenTCP returns that listener without creating
a socket, removes the key from `inherited`, stores the same file under the key
in `used`, leaves all other entries alone, and a repeated call goes straight to
creating a fresh listener. -/
theorem inherit_once (f : Fds) (network addr : String) (sys : ListenSys) (file : File)
    (ln : Listener) (hfile : f.inherited.file (listenTCPKey network addr) = some file)
    (hln : sys.fromFile = .ok (some ln)) :
    (f.ListenTCP network addr sys).result = .ok ln ∧
    (f.ListenTCP network addr sys).trace = [Effect.fileListener file] ∧
    (f.ListenTCP network addr sys).fds.inherited.get (listenTCPKey network addr) = none ∧
    (f.ListenTCP network addr sys).fds.used.get (listenTCPKey network addr)
      = some (some file) ∧
    (∀ k, k ≠ listenTCPKey network addr →
      (f.ListenTCP network addr sys).fds.inherited.get k = f.inherited.get k ∧
      (f.ListenTCP network addr sys).fds.used.get k = f.used.get k) ∧
    ∀ sys2 : ListenSys, ∃ rest,
      ((f.ListenTCP network addr sys).fds.ListenTCP network addr sys2).trace
        = Effect.listen network addr :: rest := by
  have hout : f.ListenTCP network addr sys =
      ⟨.ok ln, f.moved (listenTCPKey network addr) (some file), [Effect.fileListener file]⟩ := by
    unfold Fds.ListenTCP
    simp only [hfile, hln]
    rfl
  rw [hout]
  refine ⟨rfl, rfl, GoMap.get_delete_self _ _, GoMap.get_set_self _ _ _, fun k hk => ?_,
    fun sys2 => ?_⟩
  · exact ⟨GoMap.get_delete_ne _ _ _ hk, GoMap.get_set_ne _ _ _ _ hk⟩
  · have hnone : (f.moved (listenTCPKey network addr) (some file)).inherited.file
        (listenTCPKey network addr) = none := by
      simp [GoMap.file, Fds.moved, GoMap.get_delete_self]
    unfold Fds.ListenTCP
    simp only [hnone]
    repeat' split
    all_goals exact ⟨_, rfl⟩

/-- Witness of `inherit_once`: one inherited listener next to another entry. -/
theorem inherit_once_witness :
    (Fds.ListenTCP ⟨[("listenertcp:tcp::80", some 5), ("listenerudp:udp::53", some 6)], [], false⟩
        "tcp" ":80" ⟨.ok (some 1), .ok (2, 7), ⟨.ok 8, none, none⟩⟩).fds
      = ⟨[("listenerudp:udp::53", some 6)], [("listenertcp:tcp::80", some 5)], false⟩ ∧
    (Fds.ListenTCP ⟨[("listenertcp:tcp::80", some 5), ("listenerudp:udp::53", some 6)], [], false⟩
        "tcp" ":80" ⟨.ok (some 1), .ok (2, 7), ⟨.ok 8, none, none⟩⟩).result = .ok 1 :=
  ⟨by decide,
    (inherit_once ⟨[("listenertcp:tcp::80", some 5), ("listenerudp:udp::53", some 6)], [], false⟩
      "tcp" ":80" ⟨.ok (some 1), .ok (2, 7), ⟨.ok 8, none, none⟩⟩ 5 1 (by decide) rfl).1⟩

/-- C8: from the state `New` builds, whose `used` is empty, any sequence of
ListenTCP, ListenUDP, ConnectTCP, copy, closeInherited and closeUsed calls,
succeeding or failing, leaves no name a key of both maps, and a name that is a
key of `used` at some point is not a key of `inherited` at any later point. -/
theorem registry_disjoint (opts : Options) (initialWD : String) (gob : Gob) (sys : FindSys)
    (c : Current) (tr : List Effect) (hnew : New opts false initialWD gob sys = (.ok c, tr))
    (ops : List FdsOp) :
    c.fds.used = [] ∧
    (∀ k, ¬ (k ∈ (c.fds.after ops).inherited.keys ∧ k ∈ (c.fds.after ops).used.keys)) ∧
    ∀ (later : List FdsOp) (k : String), k ∈ (c.fds.after ops).used.keys →
      k ∉ (c.fds.after (ops ++ later)).inherited.keys := by
  have hused : c.fds.used = [] := by
    unfold New at hnew
    simp only [Bool.false_eq_true, if_false] at hnew
    split at hnew
    · simp at hnew
    · split at hnew
      · simp at hnew
      · simp only [Prod.mk.injEq, Except.ok.injEq] at hnew
        rw [← hnew.1]
  have hdis : c.fds.Disjoint := by
    intro k hk
    rw [hused] at hk
    simp [GoMap.keys] at hk
  refine ⟨hused, Fds.after_disjoint ops _ hdis, fun later k hk hin => ?_⟩
  rw [Fds.after_append] at hin
  exact Fds.after_disjoint ops _ hdis k
    ⟨Fds.after_inherited_subset later _ (Fds.after_disjoint ops _ hdis) k hin, hk⟩

/-- Witness of `registry_disjoint`: a successor that inherited one listener,
claims it and then closes everything. -/
theorem registry_disjoint_witness :
    New ⟨0, "", false⟩ false "/srv" lengthPrefixed
        ⟨"yes", lengthPrefixed.encode ["listenertcp:tcp::80"]⟩
      = (.ok ⟨⟨[("listenertcp:tcp::80", some 5)], [], false⟩,
            ⟨DefaultUpgradeTimeout, "", false⟩, some ⟨some 3, false⟩, false, false, false, []⟩,
          [Effect.closeOnExec 5]) ∧
    ¬ ("listenertcp:tcp::80" ∈ ((Fds.mk [("listenertcp:tcp::80", some 5)] [] false).after
          [.listenTCP "tcp" ":80" ⟨.ok (some 1), .ok (2, 7), ⟨.ok 8, none, none⟩⟩,
            .copy]).inherited.keys ∧
        "listenertcp:tcp::80" ∈ ((Fds.mk [("listenertcp:tcp::80", some 5)] [] false).after
          [.listenTCP "tcp" ":80" ⟨.ok (some 1), .ok (2, 7), ⟨.ok 8, none, none⟩⟩,
            .copy]).used.keys) :=
  ⟨rfl,
    (registry_disjoint ⟨0, "", false⟩ "/srv" lengthPrefixed
      ⟨"yes", lengthPrefixed.encode ["listenertcp:tcp::80"]⟩
      ⟨⟨[("listenertcp:tcp::80", some 5)], [], false⟩, ⟨DefaultUpgradeTimeout, "", false⟩,
        some ⟨some 3, false⟩, false, false, false, []⟩
      [.closeOnExec 5] rfl
      [.listenTCP "tcp" ":80" ⟨.ok (some 1), .ok (2, 7), ⟨.ok 8, none, none⟩⟩,
        .copy]).2.1 "listenertcp:tcp::80"⟩

/-! ## Handoff -/

theorem GoMap.get_of_mem {α : Type} (m : GoMap α) (hm : m.keys.Nodup) (k : String) (v : α)
    (h : (k, v) ∈ m) : m.get k = some v := by
  induction m with
  | nil => simp at h
  | cons e m ih =>
    obtain ⟨a, b⟩ := e
    simp only [GoMap.keys, List.map_cons, List.nodup_cons, List.mem_map, not_exists,
      not_and] at hm
    simp only [GoMap.get, List.lookup_cons]
    rcases List.mem_cons.1 h with h1 | h1
    · simp only [Prod.mk.injEq] at h1
      simp [h1.1, h1.2]
    · have hne : (k == a) = false := by
        simp only [beq_eq_false_iff_ne, ne_eq]
        intro hka
        exact hm.1 (k, v) h1 hka
      rw [hne]
      exact ih hm.2 h1

theorem forkLists_foldl (ranged : List (String × FilePtr)) (names : List String)
    (files : List FilePtr) :
    ranged.foldl (fun acc e => (acc.1 ++ [e.1], acc.2 ++ [e.2])) (names, files)
      = (names ++ ranged.map Prod.fst, files ++ ranged.map Prod.snd) := by
  induction ranged generalizing names files with
  | nil => simp
  | cons e ranged ih => simp [List.foldl_cons, ih]

theorem forkLists_eq (w r : FilePtr) (ranged : List (String × FilePtr)) :
    forkLists w r ranged = (ranged.map Prod.fst, w :: r :: ranged.map Prod.snd) := by
  simp [forkLists, forkLists_foldl]

theorem bindNames_get_not_mem (names : List String) (i : Nat) (files : GoMap FilePtr)
    (k : String) (hk : k ∉ names) : (bindNames i names files).1.get k = files.get k := by
  induction names generalizing i files with
  | nil => rfl
  | cons key rest ih =>
    simp only [List.mem_cons, not_or] at hk
    simp only [bindNames]
    rw [ih _ _ hk.2]
    exact GoMap.get_set_ne _ _ _ _ hk.1

theorem bindNames_get (names : List String) (hn : names.Nodup) (i : Nat)
    (files : GoMap FilePtr) (j : Nat) (name : String) (hj : names[j]? = some name) :
    (bindNames i names files).1.get name = some (NewFile (5 + (i + j))) := by
  induction names generalizing i files j with
  | nil => simp at hj
  | cons key rest ih =>
    simp only [List.nodup_cons] at hn
    simp only [bindNames]
    cases j with
    | zero =>
      simp only [List.getElem?_cons_zero, Option.some.injEq] at hj
      subst hj
      rw [bindNames_get_not_mem _ _ _ _ hn.1]
      exact GoMap.get_set_self _ _ _
    | succ j =>
      simp only [List.getElem?_cons_succ] at hj
      rw [ih hn.2 (i + 1) _ j hj]
      congr 2
      omega

theorem bindNames_keys (names : List String) (i : Nat) (files : GoMap FilePtr) (k : String) :
    k ∈ (bindNames i names files).1.keys ↔ k ∈ names ∨ k ∈ files.keys := by
  induction names generalizing i files with
  | nil => simp [bindNames]
  | cons key rest ih =>
    simp only [bindNames, List.mem_cons]
    rw [ih]
    by_cases h : k = key
    · subst h
      simp [GoMap.set, GoMap.keys]
    · have h1 : k ∈ (files.set key (NewFile (5 + i))).keys ↔ k ∈ files.keys := by
        rw [GoMap.mem_keys_iff, GoMap.mem_keys_iff, GoMap.get_set_ne _ _ _ _ h]
      rw [h1]
      simp [h]


/-- C1: for every snapshot map `m` (distinct keys) and every order `ranged` in
which its entries are visited, ForkChild passes the extra files [readiness-pipe
write end, name-pipe read end, f_0, ..., f_(N-1)] and the names [n_0, ...,
n_(N-1)] with m[n_i] = f_i; when the names decode to what was written, the map
FindParent builds has exactly the keys of `m` and maps n_i to descriptor 5+i,
which in the started process is the file m[n_i]. -/
theorem handoff_positional (m : GoMap FilePtr) (ranged : List (String × FilePtr))
    (hm : m.keys.Nodup) (hr : m.RangeOf ranged) (fsys : ForkSys) (gob : Gob)
    (readyR readyW namesR namesW : File) (pid : Nat)
    (h1 : fsys.readyPipe = .ok (readyR, readyW))
    (h2 : fsys.fdNamesPipe = .ok (namesR, namesW)) (h3 : fsys.start = .ok pid)
    (sentinel : String) (hs : sentinel ≠ "")
    (hgob : gob.decode (child.writeNames gob (ranged.map Prod.fst))
      = .ok (ranged.map Prod.fst)) :
    ∃ baby ps inherited tr,
      ForkChild ranged fsys
        = (.ok baby, [Effect.start baby.extraFiles (ranged.map Prod.fst)]) ∧
      baby.extraFiles = some readyW :: some namesR :: ranged.map Prod.snd ∧
      FindParent gob ⟨sentinel, child.writeNames gob (ranged.map Prod.fst)⟩
        = (.ok (some ps, inherited), tr) ∧
      (∀ k, k ∈ inherited.keys ↔ k ∈ m.keys) ∧
      ∀ i name file, ranged[i]? = some (name, file) →
        m.get name = some file ∧ inherited.get name = some (some (5 + i)) ∧
        childFd baby.extraFiles (5 + i) = some file := by
  have hnames : (ranged.map Prod.fst).Nodup := (List.Perm.map Prod.fst hr).nodup_iff.2 hm
  refine ⟨child.mk pid (some readyW :: some namesR :: ranged.map Prod.snd)
      (sentinelEnvVar ++ "=yes") (some readyR) (some namesW), ⟨NewFile 3, false⟩,
    (bindNames 0 (ranged.map Prod.fst) []).1, (bindNames 0 (ranged.map Prod.fst) []).2,
    ?_, ?_, ?_, ?_, ?_⟩
  · unfold ForkChild
    simp only [h1, h2, h3, forkLists_eq]
  · rfl
  · unfold FindParent
    simp only [hs, if_false, hgob]
  · intro k
    rw [bindNames_keys]
    simp only [GoMap.keys, List.map_nil, List.not_mem_nil, or_false]
    exact (List.Perm.map Prod.fst hr).mem_iff
  · intro i name file hi
    refine ⟨?_, ?_, ?_⟩
    · exact GoMap.get_of_mem m hm name file (hr.mem_iff.1 (List.getElem?_mem hi))
    · have hj : (ranged.map Prod.fst)[i]? = some name := by
        rw [List.getElem?_map, hi]; rfl
      have h := bindNames_get _ hnames 0 [] i name hj
      simpa [NewFile] using h
    · have h5 : ¬ (5 + i < 3) := by omega
      have h6 : 5 + i - 3 = i + 2 := by omega
      simp only [childFd, h5, if_false, h6, List.getElem?_cons_succ, List.getElem?_map, hi]
      rfl

/-- Witness of `handoff_positional`: two used files, visited in the order the
other way round. -/
theorem handoff_positional_witness :
    ∃ baby ps inherited tr,
      ForkChild [("listenerudp:udp::53", some 11), ("listenertcp:tcp::80", some 10)]
          ⟨.ok (20, 21), .ok (22, 23), .ok 4711, "/usr/bin/srv"⟩
        = (.ok baby, [Effect.start baby.extraFiles
            ([("listenerudp:udp::53", some 11), ("listenertcp:tcp::80", some 10)].map
              Prod.fst)]) ∧
      baby.extraFiles = some 21 :: some 22 ::
        [("listenerudp:udp::53", some 11), ("listenertcp:tcp::80", (some 10 : FilePtr))].map
          Prod.snd ∧
      FindParent lengthPrefixed ⟨"yes", child.writeNames lengthPrefixed
          ([("listenerudp:udp::53", some 11), ("listenertcp:tcp::80", (some 10 : FilePtr))].map
            Prod.fst)⟩
        = (.ok (some ps, inherited), tr) ∧
      (∀ k, k ∈ inherited.keys ↔
        k ∈ GoMap.keys [("listenertcp:tcp::80", (some 10 : FilePtr)),
          ("listenerudp:udp::53", some 11)]) ∧
      ∀ i name file,
        [("listenerudp:udp::53", some 11), ("listenertcp:tcp::80", (some 10 : FilePtr))][i]?
            = some (name, file) →
        GoMap.get [("listenertcp:tcp::80", (some 10 : FilePtr)),
          ("listenerudp:udp::53", some 11)] name = some file ∧
        inherited.get name = some (some (5 + i)) ∧
        childFd baby.extraFiles (5 + i) = some file :=
  handoff_positional [("listenertcp:tcp::80", some 10), ("listenerudp:udp::53", some 11)]
    [("listenerudp:udp::53", some 11), ("listenertcp:tcp::80", some 10)] (by decide)
    (List.Perm.swap _ _ _) ⟨.ok (20, 21), .ok (22, 23), .ok 4711, "/usr/bin/srv"⟩ lengthPrefixed
    20 21 22 23 4711 rfl rfl rfl "yes" (by decide) rfl


/-! ## The controller -/

theorem runSelect_waiting (s : RunState) (request : Nat) (a : Attempt)
    (h1 : s.currentReady = false) (h2 : s.parentExited = false)
    (h : (s.c.doUpgrade a).1 = none) :
    runSelect s (.upgrade request a) = ({ s with status := .waiting }, (s.c.doUpgrade a).2) := by
  cases hd : s.c.doUpgrade a with
  | mk r tr =>
    rw [hd] at h
    simp only at h
    subst h
    simp [runSelect, h1, h2, hd]

theorem runSelect_failed (s : RunState) (request : Nat) (a : Attempt) (err : String)
    (h1 : s.currentReady = false) (h2 : s.parentExited = false)
    (h : (s.c.doUpgrade a).1 = some (.error err)) :
    runSelect s (.upgrade request a)
      = (s, (s.c.doUpgrade a).2
          ++ [Effect.reply request (some err), Effect.writePID s.c.opts.PIDFile]) := by
  cases hd : s.c.doUpgrade a with
  | mk r tr =>
    rw [hd] at h
    simp only at h
    subst h
    simp [runSelect, h1, h2, hd]

theorem runSelect_done (s : RunState) (request : Nat) (a : Attempt) (file : FilePtr)
    (h1 : s.currentReady = false) (h2 : s.parentExited = false)
    (h : (s.c.doUpgrade a).1 = some (.ok file)) :
    runSelect s (.upgrade request a)
      = (runReturn { s with c := { s.c with fds := s.c.fds.closeUsed.1,
                                            exitFd := s.c.exitFd ++ [file] } },
          (s.c.doUpgrade a).2 ++ [Effect.reply request none, Effect.putExitFd file]
            ++ s.c.fds.closeUsed.2 ++ [Effect.closeExitC]) := by
  cases hd : s.c.doUpgrade a with
  | mk r tr =>
    rw [hd] at h
    simp only at h
    subst h
    simp [runSelect, h1, h2, hd]

/-- C2: when `run` takes an upgrade request, a non-nil `currentReady` gives the
reply "process is not ready yet"; otherwise a non-nil `parentExited` gives the
reply "parent hasn't exited"; in both cases that reply is the only effect (no
child is started), the state with its registry is unchanged and `run` stays in
its loop.  Only otherwise is `doUpgrade` entered: its effects come first. -/
theorem upgrade_preconditions (s : RunState) (request : Nat) (a : Attempt) :
    (s.currentReady = true →
      runSelect s (.upgrade request a)
        = (s, [Effect.reply request (some "process is not ready yet")])) ∧
    (s.currentReady = false → s.parentExited = true →
      runSelect s (.upgrade request a)
        = (s, [Effect.reply request (some "parent hasn't exited")])) ∧
    (s.currentReady = false → s.parentExited = false →
      ∃ rest, (runSelect s (.upgrade request a)).2 = (s.c.doUpgrade a).2 ++ rest) := by
  refine ⟨fun h => ?_, fun h1 h2 => ?_, fun h1 h2 => ?_⟩
  · simp [runSelect, h]
  · simp [runSelect, h1, h2]
  · cases hd : (s.c.doUpgrade a).1 with
    | none => exact ⟨[], by rw [runSelect_waiting s request a h1 h2 hd]; simp⟩
    | some r =>
      cases r with
      | error err => exact ⟨_, by rw [runSelect_failed s request a err h1 h2 hd]⟩
      | ok file =>
        exact ⟨_, by rw [runSelect_done s request a file h1 h2 hd, List.append_assoc,
          List.append_assoc]⟩

/-- Witness of `upgrade_preconditions`: a successor that is ready while its
parent has not exited. -/
theorem upgrade_preconditions_witness :
    runSelect
        ⟨⟨⟨[], [("listenertcp:tcp::80", some 5)], false⟩, ⟨DefaultUpgradeTimeout, "", false⟩,
          some ⟨some 3, false⟩, true, true, false, []⟩, true, false, .selecting⟩
        (.upgrade 1 ⟨[], ⟨.ok (20, 21), .ok (22, 23), .ok 4711, "srv"⟩, some 42, [.ready]⟩)
      = (⟨⟨⟨[], [("listenertcp:tcp::80", some 5)], false⟩, ⟨DefaultUpgradeTimeout, "", false⟩,
          some ⟨some 3, false⟩, true, true, false, []⟩, true, false, .selecting⟩,
        [Effect.reply 1 (some "parent hasn't exited")]) :=
  (upgrade_preconditions
    ⟨⟨⟨[], [("listenertcp:tcp::80", some 5)], false⟩, ⟨DefaultUpgradeTimeout, "", false⟩,
      some ⟨some 3, false⟩, true, true, false, []⟩, true, false, .selecting⟩ 1
    ⟨[], ⟨.ok (20, 21), .ok (22, 23), .ok 4711, "srv"⟩, some 42, [.ready]⟩).2.1 rfl rfl


theorem ForkChild_trace_reply (ranged : List (String × FilePtr)) (sys : ForkSys) (r : Nat)
    (e : Option String) : Effect.reply r e ∉ (ForkChild ranged sys).2 := by
  unfold ForkChild
  repeat' split
  all_goals simp

theorem doUpgradeLoop_trace_reply (c : Current) (baby : child) (ready : Option FilePtr)
    (evs : List BabyEvent) (r : Nat) (e : Option String)
    (h : Effect.reply r e ∈ (doUpgradeLoop c baby ready evs).2) :
    e = some "upgrade in progress" := by
  induction evs with
  | nil => simp [doUpgradeLoop] at h
  | cons ev rest ih =>
    cases ev with
    | request q =>
      simp only [doUpgradeLoop, List.mem_cons, Effect.reply.injEq] at h
      rcases h with h | h
      · exact h.2
      · exact ih h
    | finished err => cases err <;> simp [doUpgradeLoop] at h
    | exitC =>
      simp only [doUpgradeLoop] at h
      split at h
      · simp at h
      · exact ih h
    | timeout => simp [doUpgradeLoop] at h
    | ready =>
      simp only [doUpgradeLoop] at h
      split at h
      · simp at h
      · exact ih h

theorem doUpgradeLoop_error_ne (c : Current) (baby : child) (ready : Option FilePtr)
    (evs : List BabyEvent) (err : String)
    (h : (doUpgradeLoop c baby ready evs).1 = some (.error err)) :
    err ≠ "process is not ready yet" := by
  induction evs with
  | nil => simp [doUpgradeLoop] at h
  | cons ev rest ih =>
    cases ev with
    | request q => exact ih (by simpa [doUpgradeLoop] using h)
    | finished e =>
      cases e with
      | none =>
        simp only [doUpgradeLoop, Option.some.injEq, Except.error.injEq] at h
        intro h3
        have h2 := congrArg (fun s => s.data.head?) (h.trans h3)
        simp [String.data_append] at h2
      | some e =>
        simp only [doUpgradeLoop, Option.some.injEq, Except.error.injEq] at h
        intro h3
        have h2 := congrArg (fun s => s.data.head?) (h.trans h3)
        simp [wrap, String.data_append] at h2
    | exitC =>
      simp only [doUpgradeLoop] at h
      split at h
      · simp only [Option.some.injEq, Except.error.injEq] at h
        rw [← h]
        decide
      · exact ih h
    | timeout =>
      simp only [doUpgradeLoop, Option.some.injEq, Except.error.injEq] at h
      intro h3
      have h2 := congrArg (fun s => s.data.head?) (h.trans h3)
      simp [String.data_append] at h2
    | ready =>
      simp only [doUpgradeLoop] at h
      split at h
      · simp at h
      · exact ih h

theorem doUpgrade_trace_reply (c : Current) (a : Attempt) (r : Nat) (e : Option String)
    (h : Effect.reply r e ∈ (c.doUpgrade a).2) : e = some "upgrade in progress" := by
  unfold Current.doUpgrade at h
  have hf := ForkChild_trace_reply a.ranged a.fork r e
  split at h
  · rename_i heq
    rw [heq] at hf
    exact absurd h hf
  · rename_i heq
    rw [heq] at hf
    simp only [List.mem_append] at h
    rcases h with h | h
    · exact absurd h hf
    · exact doUpgradeLoop_trace_reply _ _ _ _ _ _ h

theorem doUpgrade_error_ne (c : Current) (a : Attempt) (err : String)
    (h : (c.doUpgrade a).1 = some (.error err)) : err ≠ "process is not ready yet" := by
  unfold Current.doUpgrade at h
  split at h
  · simp only [Option.some.injEq, Except.error.injEq] at h
    intro h3
    have h2 := congrArg (fun s => s.data.head?) (h.trans h3)
    simp [wrap, String.data_append] at h2
  · exact doUpgradeLoop_error_ne _ _ _ _ _ h

theorem Current.Ready_parent (c : Current) (sys : ReadySys) :
    (c.Ready sys).2.1.parent = c.parent := by
  unfold Current.Ready
  simp only
  repeat' split
  all_goals rfl

theorem runSelect_parent (s : RunState) (e : RunEvent) :
    (runSelect s e).1.c.parent = s.c.parent ∧
      (s.parentExited = false → (runSelect s e).1.parentExited = false) := by
  cases e with
  | parentExited =>
    simp only [runSelect]
    repeat' split
    all_goals exact ⟨rfl, fun h => by first | exact h | rfl⟩
  | currentReady =>
    simp only [runSelect]
    split
    all_goals exact ⟨rfl, fun h => h⟩
  | exitC =>
    simp only [runSelect]
    split
    all_goals exact ⟨rfl, fun h => h⟩
  | upgrade request a =>
    simp only [runSelect]
    repeat' split
    all_goals exact ⟨rfl, fun h => h⟩

theorem step_root (s : RunState) (a : Action) (h1 : s.c.parent = none)
    (h2 : s.parentExited = false) :
    (step s a).1.c.parent = none ∧ (step s a).1.parentExited = false := by
  cases a with
  | select e =>
    simp only [step]
    split
    · exact ⟨(runSelect_parent s e).1.trans h1, (runSelect_parent s e).2 h2⟩
    · exact ⟨h1, h2⟩
  | callReady sys => exact ⟨(Current.Ready_parent s.c sys).trans h1, h2⟩
  | parentGone => exact ⟨by simp [step, h1], h2⟩
  | fds op => exact ⟨h1, h2⟩

theorem exec_root (acts : List Action) (s : RunState) (h1 : s.c.parent = none)
    (h2 : s.parentExited = false) :
    (exec s acts).1.c.parent = none ∧ (exec s acts).1.parentExited = false := by
  induction acts generalizing s with
  | nil => exact ⟨h1, h2⟩
  | cons a rest ih => exact ih _ (step_root s a h1 h2).1 (step_root s a h1 h2).2

/-- C3 as stated fails: on a root process `Ready` returns nil and has closed
the readiness latch, the next case the loop of `run` takes is an upgrade
request, and the request is answered "process is not ready yet". -/
theorem ready_then_upgrade_counterexample :
    New ⟨0, "", false⟩ false "/srv" lengthPrefixed ⟨"", []⟩
      = (.ok ⟨⟨[], [], false⟩, ⟨DefaultUpgradeTimeout, "", false⟩, none, false, false, false, []⟩,
          []) ∧
    (Current.Ready ⟨⟨[], [], false⟩, ⟨DefaultUpgradeTimeout, "", false⟩, none, false, false,
        false, []⟩ ⟨⟨"/srv", none, none, none⟩, none⟩).1 = none ∧
    (Current.Ready ⟨⟨[], [], false⟩, ⟨DefaultUpgradeTimeout, "", false⟩, none, false, false,
        false, []⟩ ⟨⟨"/srv", none, none, none⟩, none⟩).2.1.readyC = true ∧
    (exec (Current.runInit ⟨⟨[], [], false⟩, ⟨DefaultUpgradeTimeout, "", false⟩, none, false,
        false, false, []⟩)
      [.callReady ⟨⟨"/srv", none, none, none⟩, none⟩,
        .select (.upgrade 1
          ⟨[], ⟨.ok (20, 21), .ok (22, 23), .ok 4711, "srv"⟩, some 42, [.ready]⟩)]).2
      = [Effect.closeReadyC, Effect.reply 1 (some "process is not ready yet")] := by
  refine ⟨rfl, rfl, rfl, ?_⟩
  decide

/-- C3 (amended): on a root process, in every execution, an upgrade request
that `run` takes once its loop has observed the readiness latch closed
(`currentReady` is nil) is never answered with "process is not ready yet"; it
enters `doUpgrade`.  Once `Ready` has closed the latch the loop can make that
observation: taking the case `<-currentReady` sets `currentReady` to nil. -/
theorem upgrade_after_observed_ready (c : Current) (hroot : c.parent = none)
    (acts : List Action) (request : Nat) (a : Attempt)
    (hobs : (exec c.runInit acts).1.currentReady = false) :
    (∃ rest, (runSelect (exec c.runInit acts).1 (.upgrade request a)).2
        = ((exec c.runInit acts).1.c.doUpgrade a).2 ++ rest) ∧
    Effect.reply request (some "process is not ready yet")
      ∉ (runSelect (exec c.runInit acts).1 (.upgrade request a)).2 ∧
    ∀ s : RunState, s.c.readyC = true → (runSelect s .currentReady).1.currentReady = false := by
  have hinv := exec_root acts c.runInit hroot (by simp [Current.runInit, hroot])
  generalize (exec c.runInit acts).1 = s at hobs hinv ⊢
  refine ⟨(upgrade_preconditions s request a).2.2 hobs hinv.2, ?_, fun t ht => ?_⟩
  · intro hmem
    have hne : (some "process is not ready yet" : Option String)
        ≠ some "upgrade in progress" := by decide
    cases hd : (s.c.doUpgrade a).1 with
    | none =>
      rw [runSelect_waiting s request a hobs hinv.2 hd] at hmem
      exact hne (doUpgrade_trace_reply _ _ _ _ hmem)
    | some r =>
      cases r with
      | error err =>
        rw [runSelect_failed s request a err hobs hinv.2 hd] at hmem
        simp only [List.mem_append, List.mem_cons, Effect.reply.injEq, Option.some.injEq,
          true_and, List.mem_singleton, reduceCtorEq, or_false, List.not_mem_nil] at hmem
        rcases hmem with hmem | hmem
        · exact hne (doUpgrade_trace_reply _ _ _ _ hmem)
        · exact doUpgrade_error_ne _ _ _ hd hmem.symm
      | ok file =>
        rw [runSelect_done s request a file hobs hinv.2 hd] at hmem
        simp only [List.mem_append, List.mem_cons, Effect.reply.injEq, reduceCtorEq,
          and_false, List.mem_singleton, or_false, false_or, List.not_mem_nil,
          Fds.closeUsed, List.mem_map] at hmem
        rcases hmem with hmem | ⟨_, _, hmem⟩
        exact hne (doUpgrade_trace_reply _ _ _ _ hmem)
  · by_cases h : t.currentReady = true
    · simp [runSelect, h, ht]
    · simp only [Bool.not_eq_true] at h
      simp [runSelect, h]

/-- Witness of `upgrade_after_observed_ready`: `Ready`, then the loop observes
the latch, then an upgrade request is taken and starts a successor. -/
theorem upgrade_after_observed_ready_witness :
    (runSelect (exec (Current.runInit ⟨⟨[], [], false⟩, ⟨DefaultUpgradeTimeout, "", false⟩, none,
        false, false, false, []⟩)
      [.callReady ⟨⟨"/srv", none, none, none⟩, none⟩, .select .currentReady]).1
      (.upgrade 1 ⟨[], ⟨.ok (20, 21), .ok (22, 23), .ok 4711, "srv"⟩, some 42, [.ready]⟩)).2
      = [Effect.start [some 21, some 22] [], Effect.reply 1 none, Effect.putExitFd (some 23),
          Effect.closeExitC] ∧
    Effect.reply 1 (some "process is not ready yet")
      ∉ (runSelect (exec (Current.runInit ⟨⟨[], [], false⟩, ⟨DefaultUpgradeTimeout, "", false⟩,
          none, false, false, false, []⟩)
        [.callReady ⟨⟨"/srv", none, none, none⟩, none⟩, .select .currentReady]).1
        (.upgrade 1 ⟨[], ⟨.ok (20, 21), .ok (22, 23), .ok 4711, "srv"⟩, some 42, [.ready]⟩)).2 :=
  ⟨by decide,
    (upgrade_after_observed_ready ⟨⟨[], [], false⟩, ⟨DefaultUpgradeTimeout, "", false⟩, none,
        false, false, false, []⟩ rfl
      [.callReady ⟨⟨"/srv", none, none, none⟩, none⟩, .select .currentReady] 1
      ⟨[], ⟨.ok (20, 21), .ok (22, 23), .ok 4711, "srv"⟩, some 42, [.ready]⟩ (by decide)).2.1⟩


theorem ForkChild_ok_trace (ranged : List (String × FilePtr)) (sys : ForkSys) (baby : child)
    (tr : List Effect) (h : ForkChild ranged sys = (.ok baby, tr)) :
    (∃ names, tr = [Effect.start baby.extraFiles names]) ∧
      ∃ nr nw, sys.fdNamesPipe = .ok (nr, nw) ∧ baby.fdNamesPipeWrite = some nw := by
  unfold ForkChild at h
  split at h
  · simp at h
  · split at h
    · simp at h
    · split at h
      · simp at h
      · rename_i nr nw hp _ pid _
        simp only [Prod.mk.injEq, Except.ok.injEq] at h
        rw [← h.1, ← h.2]
        exact ⟨⟨_, rfl⟩, nr, nw, hp, rfl⟩

/-- Effects of `ForkChild`: one start, or closing pipe ends it created itself. -/
theorem ForkChild_trace (ranged : List (String × FilePtr)) (sys : ForkSys) (x : Effect)
    (h : x ∈ (ForkChild ranged sys).2) :
    (∃ files names, x = Effect.start files names) ∨
      ∃ r w, (sys.readyPipe = .ok (r, w) ∨ sys.fdNamesPipe = .ok (r, w)) ∧
        (x = Effect.closeFile (some r) ∨ x = Effect.closeFile (some w)) := by
  unfold ForkChild at h
  split at h
  · simp at h
  · rename_i r w hp
    split at h
    · simp only [List.mem_cons, List.mem_singleton, List.not_mem_nil, or_false] at h
      exact Or.inr ⟨r, w, Or.inl hp, h⟩
    · rename_i nr nw hq
      split at h
      · simp only [List.mem_cons, List.mem_singleton, List.not_mem_nil, or_false] at h
        rcases h with h | h | h | h
        · exact Or.inr ⟨r, w, Or.inl hp, Or.inl h⟩
        · exact Or.inr ⟨r, w, Or.inl hp, Or.inr h⟩
        · exact Or.inr ⟨nr, nw, Or.inr hq, Or.inl h⟩
        · exact Or.inr ⟨nr, nw, Or.inr hq, Or.inr h⟩
      · simp only [List.mem_singleton] at h
        exact Or.inl ⟨_, _, h⟩

/-- Effects of the loop of `doUpgrade`: replies "upgrade in progress" and kills. -/
theorem doUpgradeLoop_trace (c : Current) (baby : child) (ready : Option FilePtr)
    (evs : List BabyEvent) (x : Effect) (h : x ∈ (doUpgradeLoop c baby ready evs).2) :
    (∃ r, x = Effect.reply r (some "upgrade in progress")) ∨ x = Effect.kill baby.pid := by
  induction evs with
  | nil => simp [doUpgradeLoop] at h
  | cons ev rest ih =>
    cases ev with
    | request q =>
      simp only [doUpgradeLoop, List.mem_cons] at h
      rcases h with h | h
      · exact Or.inl ⟨q, h⟩
      · exact ih h
    | finished err => cases err <;> simp [doUpgradeLoop] at h
    | exitC =>
      simp only [doUpgradeLoop] at h
      split at h
      · exact Or.inr (by simpa using h)
      · exact ih h
    | timeout => exact Or.inr (by simpa [doUpgradeLoop] using h)
    | ready =>
      simp only [doUpgradeLoop] at h
      split at h
      · simp at h
      · exact ih h

theorem doUpgradeLoop_ok (c : Current) (baby : child) (ready : Option FilePtr)
    (evs : List BabyEvent) (file : FilePtr)
    (h : (doUpgradeLoop c baby ready evs).1 = some (.ok file)) : ready = some file := by
  induction evs with
  | nil => simp [doUpgradeLoop] at h
  | cons ev rest ih =>
    cases ev with
    | request q => exact ih (by simpa [doUpgradeLoop] using h)
    | finished err => cases err <;> simp [doUpgradeLoop] at h
    | exitC =>
      simp only [doUpgradeLoop] at h
      split at h
      · simp at h
      · exact ih h
    | timeout => simp [doUpgradeLoop] at h
    | ready =>
      simp only [doUpgradeLoop] at h
      split at h
      · simp only [Option.some.injEq, Except.ok.injEq] at h
        rw [h]
      · exact ih h

/-- Effects of `doUpgrade`. -/
theorem doUpgrade_trace (c : Current) (a : Attempt) (x : Effect) (h : x ∈ (c.doUpgrade a).2) :
    (∃ r, x = Effect.reply r (some "upgrade in progress")) ∨ (∃ pid, x = Effect.kill pid) ∨
    (∃ files names, x = Effect.start files names) ∨
      ∃ r w, (a.fork.readyPipe = .ok (r, w) ∨ a.fork.fdNamesPipe = .ok (r, w)) ∧
        (x = Effect.closeFile (some r) ∨ x = Effect.closeFile (some w)) := by
  unfold Current.doUpgrade at h
  have hf := ForkChild_trace a.ranged a.fork x
  split at h
  · rename_i heq
    rw [heq] at hf
    exact Or.inr (Or.inr (hf h))
  · rename_i heq
    rw [heq] at hf
    simp only [List.mem_append] at h
    rcases h with h | h
    · exact Or.inr (Or.inr (hf h))
    · rcases doUpgradeLoop_trace _ _ _ _ _ h with h3 | h3
      · exact Or.inl h3
      · exact Or.inr (Or.inl ⟨_, h3⟩)

/-- A successful `doUpgrade` started a successor, read the readiness byte and
returns the write end of the name pipe; its only effects besides the start are
replies. -/
theorem doUpgrade_ok (c : Current) (a : Attempt) (file : FilePtr)
    (h : (c.doUpgrade a).1 = some (.ok file)) :
    ∃ baby names nr nw, ForkChild a.ranged a.fork
        = (.ok baby, [Effect.start baby.extraFiles names]) ∧
      a.fork.fdNamesPipe = .ok (nr, nw) ∧ file = some nw ∧ file = baby.fdNamesPipeWrite ∧
      a.readyByte = some notifyReady ∧
      ∀ p, Effect.closeFile p ∉ (c.doUpgrade a).2 := by
  unfold Current.doUpgrade at h ⊢
  cases hf : ForkChild a.ranged a.fork with
  | mk r tr =>
    cases r with
    | error e => simp [hf] at h
    | ok baby =>
      simp only [hf] at h ⊢
      obtain ⟨⟨names, htr⟩, nr, nw, hp, hw⟩ := ForkChild_ok_trace _ _ _ _ hf
      have hready := doUpgradeLoop_ok _ _ _ _ _ h
      have hbyte : a.readyByte = some notifyReady ∧ file = baby.fdNamesPipeWrite := by
        unfold child.waitReady at hready
        split at hready
        · rename_i b hb
          split at hready
          · rename_i hb2
            simp only [Option.some.injEq] at hready
            exact ⟨by rw [hb, hb2], hready.symm⟩
          · simp at hready
        · simp at hready
      refine ⟨baby, names, nr, nw, by rw [htr], hp, by rw [hbyte.2, hw], hbyte.2, hbyte.1,
        fun p hmem => ?_⟩
      simp only [htr, List.mem_append, List.mem_singleton, reduceCtorEq, false_or] at hmem
      rcases doUpgradeLoop_trace _ _ _ _ _ hmem with ⟨_, h3⟩ | h3
      · exact Effect.noConfusion h3
      · exact Effect.noConfusion h3


/-- C4: when `doUpgrade` returns an error, handling the request leaves the
whole state of `run` as it was (both maps, `currentReady`, `parentExited`, the
content of `exitFd`, the exit latch, and `run` still in its loop); the effects
are those of `doUpgrade`, the reply with that error and the rewrite of the PID
file; nothing is put into `exitFd`, the exit channel is not closed, and the
only files closed are pipe ends this attempt created itself. -/
theorem failed_upgrade_frame (s : RunState) (request : Nat) (a : Attempt) (err : String)
    (h1 : s.currentReady = false) (h2 : s.parentExited = false)
    (herr : (s.c.doUpgrade a).1 = some (.error err)) :
    (runSelect s (.upgrade request a)).1 = s ∧
    (runSelect s (.upgrade request a)).2
      = (s.c.doUpgrade a).2
          ++ [Effect.reply request (some err), Effect.writePID s.c.opts.PIDFile] ∧
    (∀ file, Effect.putExitFd file ∉ (runSelect s (.upgrade request a)).2) ∧
    Effect.closeExitC ∉ (runSelect s (.upgrade request a)).2 ∧
    ∀ p, Effect.closeFile p ∈ (runSelect s (.upgrade request a)).2 →
      ∃ r w, (a.fork.readyPipe = .ok (r, w) ∨ a.fork.fdNamesPipe = .ok (r, w)) ∧
        (p = some r ∨ p = some w) := by
  rw [runSelect_failed s request a err h1 h2 herr]
  refine ⟨rfl, rfl, fun file hmem => ?_, fun hmem => ?_, fun p hmem => ?_⟩
  · simp only [List.mem_append, List.mem_cons, reduceCtorEq, List.not_mem_nil, or_false] at hmem
    rcases doUpgrade_trace _ _ _ hmem with ⟨_, h⟩ | ⟨_, h⟩ | ⟨_, _, h⟩ | ⟨_, _, _, h | h⟩
    all_goals exact Effect.noConfusion h
  · simp only [List.mem_append, List.mem_cons, reduceCtorEq, List.not_mem_nil, or_false] at hmem
    rcases doUpgrade_trace _ _ _ hmem with ⟨_, h⟩ | ⟨_, h⟩ | ⟨_, _, h⟩ | ⟨_, _, _, h | h⟩
    all_goals exact Effect.noConfusion h
  · simp only [List.mem_append, List.mem_cons, reduceCtorEq, List.not_mem_nil, or_false] at hmem
    rcases doUpgrade_trace _ _ _ hmem with ⟨_, h⟩ | ⟨_, h⟩ | ⟨_, _, h⟩ | ⟨r, w, hp, h⟩
    · exact Effect.noConfusion h
    · exact Effect.noConfusion h
    · exact Effect.noConfusion h
    · refine ⟨r, w, hp, ?_⟩
      rcases h with h | h
      · exact Or.inl (Effect.closeFile.inj h)
      · exact Or.inr (Effect.closeFile.inj h)

/-- Witness of `failed_upgrade_frame`: the successor never reports ready, a
second request arrives meanwhile, then the timeout fires. -/
theorem failed_upgrade_frame_witness :
    runSelect
        ⟨⟨⟨[], [("listenertcp:tcp::80", some 5)], false⟩, ⟨DefaultUpgradeTimeout, "p.pid", false⟩,
          none, true, true, false, []⟩, false, false, .selecting⟩
        (.upgrade 1 ⟨[("listenertcp:tcp::80", some 5)],
          ⟨.ok (20, 21), .ok (22, 23), .ok 4711, "srv"⟩, none, [.request 2, .timeout]⟩)
      = (⟨⟨⟨[], [("listenertcp:tcp::80", some 5)], false⟩,
            ⟨DefaultUpgradeTimeout, "p.pid", false⟩, none, true, true, false, []⟩, false, false,
            .selecting⟩,
          [Effect.start [some 21, some 22, some 5] ["listenertcp:tcp::80"],
            Effect.reply 2 (some "upgrade in progress"), Effect.kill 4711,
            Effect.reply 1 (some "new baby 4711 timed out"), Effect.writePID "p.pid"]) ∧
    (runSelect
        ⟨⟨⟨[], [("listenertcp:tcp::80", some 5)], false⟩, ⟨DefaultUpgradeTimeout, "p.pid", false⟩,
          none, true, true, false, []⟩, false, false, .selecting⟩
        (.upgrade 1 ⟨[("listenertcp:tcp::80", some 5)],
          ⟨.ok (20, 21), .ok (22, 23), .ok 4711, "srv"⟩, none, [.request 2, .timeout]⟩)).1
      = ⟨⟨⟨[], [("listenertcp:tcp::80", some 5)], false⟩, ⟨DefaultUpgradeTimeout, "p.pid", false⟩,
          none, true, true, false, []⟩, false, false, .selecting⟩ :=
  ⟨by decide,
    (failed_upgrade_frame
      ⟨⟨⟨[], [("listenertcp:tcp::80", some 5)], false⟩, ⟨DefaultUpgradeTimeout, "p.pid", false⟩,
        none, true, true, false, []⟩, false, false, .selecting⟩ 1
      ⟨[("listenertcp:tcp::80", some 5)], ⟨.ok (20, 21), .ok (22, 23), .ok 4711, "srv"⟩, none,
        [.request 2, .timeout]⟩ "new baby 4711 timed out" rfl rfl rfl).1⟩

/-- The steps of `run` itself after a successful `doUpgrade`: the file returned
is the write end of the name pipe of the successor it started, and `run` then,
in this order, replies nil to the requester, puts the file into `exitFd`,
closes every file in `used`, and returns, closing the exit channel.  Afterwards
`used` is empty, the exit latch is closed, `exitFd` holds the file, and the
files `run` closed are exactly those of `used`.  What `child.waitExit` does to
the stored file is stated separately. -/
theorem successful_upgrade_order (s : RunState) (request : Nat) (a : Attempt) (file : FilePtr)
    (h1 : s.currentReady = false) (h2 : s.parentExited = false)
    (hok : (s.c.doUpgrade a).1 = some (.ok file)) :
    (∃ baby names, ForkChild a.ranged a.fork
        = (.ok baby, [Effect.start baby.extraFiles names]) ∧ file = baby.fdNamesPipeWrite) ∧
    (runSelect s (.upgrade request a)).2
      = (s.c.doUpgrade a).2 ++ [Effect.reply request none, Effect.putExitFd file]
          ++ s.c.fds.used.map (fun e => Effect.closeFile e.2) ++ [Effect.closeExitC] ∧
    (runSelect s (.upgrade request a)).1.c.fds.used = [] ∧
    (runSelect s (.upgrade request a)).1.c.fds.inherited = s.c.fds.inherited ∧
    (runSelect s (.upgrade request a)).1.c.exitFd = s.c.exitFd ++ [file] ∧
    (runSelect s (.upgrade request a)).1.c.exitC = true ∧
    (runSelect s (.upgrade request a)).1.status = .returned ∧
    (∀ p, Effect.closeFile p ∈ (runSelect s (.upgrade request a)).2
      ↔ p ∈ s.c.fds.used.map Prod.snd) ∧
    (file ∉ s.c.fds.used.map Prod.snd →
      Effect.closeFile file ∉ (runSelect s (.upgrade request a)).2) := by
  obtain ⟨baby, names, nr, nw, hf, _, _, hfile, _, hclose⟩ := doUpgrade_ok s.c a file hok
  have hiff : ∀ p, Effect.closeFile p ∈ (s.c.doUpgrade a).2
      ++ [Effect.reply request none, Effect.putExitFd file]
      ++ s.c.fds.closeUsed.2 ++ [Effect.closeExitC] ↔ p ∈ s.c.fds.used.map Prod.snd := by
    intro p
    simp only [List.mem_append, List.mem_cons, reduceCtorEq, List.not_mem_nil, or_false,
      hclose p, false_or, Fds.closeUsed, List.mem_map, Effect.closeFile.injEq]
  rw [runSelect_done s request a file h1 h2 hok]
  refine ⟨⟨baby, names, hf, hfile⟩, rfl, rfl, rfl, rfl, rfl, rfl, hiff, fun hnot hmem => ?_⟩
  exact hnot ((hiff file).1 hmem)

/-- Witness of `successful_upgrade_order`: the successor reports ready. -/
theorem successful_upgrade_order_witness :
    (runSelect
        ⟨⟨⟨[], [("listenertcp:tcp::80", some 5)], false⟩, ⟨DefaultUpgradeTimeout, "", false⟩,
          none, true, true, false, []⟩, false, false, .selecting⟩
        (.upgrade 1 ⟨[("listenertcp:tcp::80", some 5)],
          ⟨.ok (20, 21), .ok (22, 23), .ok 4711, "srv"⟩, some 42, [.request 2, .ready]⟩)).2
      = [Effect.start [some 21, some 22, some 5] ["listenertcp:tcp::80"],
          Effect.reply 2 (some "upgrade in progress"), Effect.reply 1 none,
          Effect.putExitFd (some 23), Effect.closeFile (some 5), Effect.closeExitC] ∧
    (runSelect
        ⟨⟨⟨[], [("listenertcp:tcp::80", some 5)], false⟩, ⟨DefaultUpgradeTimeout, "", false⟩,
          none, true, true, false, []⟩, false, false, .selecting⟩
        (.upgrade 1 ⟨[("listenertcp:tcp::80", some 5)],
          ⟨.ok (20, 21), .ok (22, 23), .ok 4711, "srv"⟩, some 42, [.request 2, .ready]⟩)).1.status
      = .returned :=
  ⟨by decide,
    (successful_upgrade_order
      ⟨⟨⟨[], [("listenertcp:tcp::80", some 5)], false⟩, ⟨DefaultUpgradeTimeout, "", false⟩,
        none, true, true, false, []⟩, false, false, .selecting⟩ 1
      ⟨[("listenertcp:tcp::80", some 5)], ⟨.ok (20, 21), .ok (22, 23), .ok 4711, "srv"⟩, some 42,
        [.request 2, .ready]⟩ (some 23) rfl rfl rfl).2.2.2.2.2.2.1⟩


/-- Whenever `doUpgrade` succeeds, the file it returns, which `run` stores in
`exitFd`, is one of the two files `waitExit` of the same successor closes once
that successor has exited, whatever its wait result. -/
theorem doUpgrade_ok_waitExit (c : Current) (a : Attempt) (file : FilePtr)
    (h : (c.doUpgrade a).1 = some (.ok file)) :
    ∃ baby tr, ForkChild a.ranged a.fork = (.ok baby, tr) ∧
      ∀ err, Effect.closeFile file ∈ (baby.waitExit err).2 := by
  obtain ⟨baby, names, _, _, hf, _, _, hfile, _, _⟩ := doUpgrade_ok c a file h
  refine ⟨baby, _, hf, fun err => ?_⟩
  simp [child.waitExit, hfile]

/-- C5 (code bug): a root process that is ready holds one used file (5) and
handles the upgrade request 1; the successor 4711 writes the readiness byte, so
`doUpgrade` returns the write end of the name pipe (file 23) and `run` replies
nil, stores file 23 in `exitFd`, closes file 5 and returns without closing file
23.  When the successor then exits while this process is still running,
`waitExit` of its handle closes file 23: the file kept in `exitFd` does not
remain open until the process exits. -/
theorem exitFd_closed_on_successor_exit :
    (ForkChild [("listenertcp:tcp::80", some 5)]
        ⟨.ok (20, 21), .ok (22, 23), .ok 4711, "srv"⟩).1
      = .ok ⟨4711, [some 21, some 22, some 5], "TABLEFLIP_HAS_PARENT_7DIU3=yes", some 20,
          some 23⟩ ∧
    (Current.doUpgrade ⟨⟨[], [("listenertcp:tcp::80", some 5)], false⟩,
        ⟨DefaultUpgradeTimeout, "", false⟩, none, true, true, false, []⟩
      ⟨[("listenertcp:tcp::80", some 5)], ⟨.ok (20, 21), .ok (22, 23), .ok 4711, "srv"⟩,
        some 42, [.ready]⟩).1 = some (.ok (some 23)) ∧
    runSelect
        ⟨⟨⟨[], [("listenertcp:tcp::80", some 5)], false⟩, ⟨DefaultUpgradeTimeout, "", false⟩,
          none, true, true, false, []⟩, false, false, .selecting⟩
        (.upgrade 1 ⟨[("listenertcp:tcp::80", some 5)],
          ⟨.ok (20, 21), .ok (22, 23), .ok 4711, "srv"⟩, some 42, [.ready]⟩)
      = (⟨⟨⟨[], [], false⟩, ⟨DefaultUpgradeTimeout, "", false⟩, none, true, true, true,
            [some 23]⟩, false, false, .returned⟩,
          [Effect.start [some 21, some 22, some 5] ["listenertcp:tcp::80"],
            Effect.reply 1 none, Effect.putExitFd (some 23), Effect.closeFile (some 5),
            Effect.closeExitC]) ∧
    child.waitExit ⟨4711, [some 21, some 22, some 5], "TABLEFLIP_HAS_PARENT_7DIU3=yes",
        some 20, some 23⟩ none
      = (none, [Effect.closeFile (some 20), Effect.closeFile (some 23)]) := by
  refine ⟨rfl, rfl, by decide, by decide⟩

theorem replies_append (l1 l2 : List Effect) : replies (l1 ++ l2) = replies l1 ++ replies l2 := by
  induction l1 with
  | nil => rfl
  | cons x l1 ih => cases x <;> simp [replies, ih]

theorem starts_append (l1 l2 : List Effect) : starts (l1 ++ l2) = starts l1 + starts l2 := by
  induction l1 with
  | nil => simp [starts]
  | cons x l1 ih =>
    cases x
    case start => simp [starts, ih]; omega
    all_goals simp [starts, ih]

theorem replies_closeFiles (m : GoMap FilePtr) :
    replies (m.map (fun e => Effect.closeFile e.2)) = [] := by
  induction m with
  | nil => rfl
  | cons e m ih => simpa [replies] using ih

theorem starts_closeFiles (m : GoMap FilePtr) :
    starts (m.map (fun e => Effect.closeFile e.2)) = 0 := by
  induction m with
  | nil => rfl
  | cons e m ih => simpa [starts] using ih

theorem ForkChild_replies (ranged : List (String × FilePtr)) (sys : ForkSys) :
    replies (ForkChild ranged sys).2 = [] ∧ starts (ForkChild ranged sys).2 ≤ 1 := by
  unfold ForkChild
  repeat' split
  all_goals simp [replies, starts]

theorem doUpgradeLoop_replies (c : Current) (baby : child) (ready : Option FilePtr)
    (evs : List BabyEvent) :
    replies (doUpgradeLoop c baby ready evs).2
        = (takenInLoop c ready evs).map (fun r => (r, some "upgrade in progress")) ∧
      starts (doUpgradeLoop c baby ready evs).2 = 0 := by
  induction evs with
  | nil => simp [doUpgradeLoop, takenInLoop, replies, starts]
  | cons ev rest ih =>
    cases ev with
    | request q => simp [doUpgradeLoop, takenInLoop, replies, starts, ih]
    | finished err => cases err <;> simp [doUpgradeLoop, takenInLoop, replies, starts]
    | exitC =>
      simp only [doUpgradeLoop, takenInLoop]
      split
      · simp [replies, starts]
      · exact ih
    | timeout => simp [doUpgradeLoop, takenInLoop, replies, starts]
    | ready =>
      simp only [doUpgradeLoop, takenInLoop]
      split
      · simp [replies, starts]
      · exact ih

theorem doUpgrade_replies (c : Current) (a : Attempt) :
    replies (c.doUpgrade a).2
        = (c.takenInUpgrade a).map (fun r => (r, some "upgrade in progress")) ∧
      starts (c.doUpgrade a).2 ≤ 1 := by
  unfold Current.doUpgrade Current.takenInUpgrade
  have hf := ForkChild_replies a.ranged a.fork
  cases hfc : ForkChild a.ranged a.fork with
  | mk r tr =>
    rw [hfc] at hf
    cases r with
    | error e => simpa using hf
    | ok baby =>
      have hl := doUpgradeLoop_replies c baby (baby.waitReady a.readyByte) a.events
      simp only [replies_append, starts_append, hf.1, hl.1, hl.2, List.nil_append, Nat.add_zero]
      exact ⟨trivial, hf.2⟩

theorem doUpgradeLoop_requests (c : Current) (baby : child) (ready : Option FilePtr)
    (reqs : List Nat) (rest : List BabyEvent) :
    doUpgradeLoop c baby ready (reqs.map BabyEvent.request ++ rest)
      = ((doUpgradeLoop c baby ready rest).1,
          reqs.map (fun r => Effect.reply r (some "upgrade in progress"))
            ++ (doUpgradeLoop c baby ready rest).2) := by
  induction reqs with
  | nil => rfl
  | cons q reqs ih => simp [doUpgradeLoop, ih]

theorem doUpgradeLoop_timeout (c : Current) (baby : child) (ready : Option FilePtr)
    (evs : List BabyEvent) (h : BabyEvent.timeout ∈ evs) :
    (doUpgradeLoop c baby ready evs).1 ≠ none := by
  induction evs with
  | nil => simp at h
  | cons ev rest ih =>
    cases ev with
    | request q => simpa [doUpgradeLoop] using ih (by simpa using h)
    | finished err => cases err <;> simp [doUpgradeLoop]
    | exitC =>
      simp only [doUpgradeLoop]
      split
      · simp
      · exact ih (by simpa using h)
    | timeout => simp [doUpgradeLoop]
    | ready =>
      simp only [doUpgradeLoop]
      split
      · simp
      · exact ih (by simpa using h)

theorem doUpgrade_timeout (c : Current) (a : Attempt) (h : BabyEvent.timeout ∈ a.events) :
    (c.doUpgrade a).1 ≠ none := by
  unfold Current.doUpgrade
  split
  · simp
  · exact doUpgradeLoop_timeout _ _ _ _ h


/-- C9: while the loop of `doUpgrade` waits, every further request it takes is
answered "upgrade in progress" and the loop goes on as it would without it;
handling one request starts at most one successor; all replies sent inside
`doUpgrade` are "upgrade in progress" to the requests taken there; a rejected
request gets its one reply; and when the timer of the attempt fires at some
point, `doUpgrade` returns and the replies are exactly one "upgrade in
progress" per request taken inside, followed by the result of the attempt, sent
to the request that started it. -/
theorem one_upgrade_in_flight (s : RunState) (request : Nat) (a : Attempt) (baby : child)
    (ready : Option FilePtr) (reqs : List Nat) (rest : List BabyEvent) :
    doUpgradeLoop s.c baby ready (reqs.map BabyEvent.request ++ rest)
      = ((doUpgradeLoop s.c baby ready rest).1,
          reqs.map (fun r => Effect.reply r (some "upgrade in progress"))
            ++ (doUpgradeLoop s.c baby ready rest).2) ∧
    starts (runSelect s (.upgrade request a)).2 ≤ 1 ∧
    replies (s.c.doUpgrade a).2
      = (s.c.takenInUpgrade a).map (fun r => (r, some "upgrade in progress")) ∧
    ((s.currentReady = true ∨ s.parentExited = true) →
      (replies (runSelect s (.upgrade request a)).2).map Prod.fst = [request]) ∧
    (s.currentReady = false → s.parentExited = false → BabyEvent.timeout ∈ a.events →
      ∃ result, (s.c.doUpgrade a).1 = some result ∧
        replies (runSelect s (.upgrade request a)).2
          = (s.c.takenInUpgrade a).map (fun r => (r, some "upgrade in progress"))
            ++ [(request, match result with
                | .error err => some err
                | .ok _ => none)]) := by
  have hrep := doUpgrade_replies s.c a
  refine ⟨doUpgradeLoop_requests _ _ _ _ _, ?_, hrep.1, fun h => ?_, fun h1 h2 hto => ?_⟩
  · by_cases h1 : s.currentReady = true
    · simp [runSelect, h1, starts]
    · simp only [Bool.not_eq_true] at h1
      by_cases h2 : s.parentExited = true
      · simp [runSelect, h1, h2, starts]
      · simp only [Bool.not_eq_true] at h2
        cases hd : (s.c.doUpgrade a).1 with
        | none =>
          rw [runSelect_waiting s request a h1 h2 hd]
          exact hrep.2
        | some r =>
          cases r with
          | error err =>
            rw [runSelect_failed s request a err h1 h2 hd]
            simp only [starts_append, starts, Nat.add_zero]
            exact hrep.2
          | ok file =>
            rw [runSelect_done s request a file h1 h2 hd]
            simp only [starts_append, starts, Nat.add_zero, Fds.closeUsed, starts_closeFiles]
            exact hrep.2
  · by_cases h1 : s.currentReady = true
    · simp [runSelect, h1, replies]
    · simp only [Bool.not_eq_true] at h1
      have h2 : s.parentExited = true := by
        rcases h with h | h
        · rw [h1] at h; exact absurd h (by decide)
        · exact h
      simp [runSelect, h1, h2, replies]
  · cases hd : (s.c.doUpgrade a).1 with
    | none => exact absurd hd (doUpgrade_timeout s.c a hto)
    | some r =>
      refine ⟨r, rfl, ?_⟩
      cases r with
      | error err =>
        rw [runSelect_failed s request a err h1 h2 hd]
        simp only [replies_append, replies, hrep.1]
      | ok file =>
        rw [runSelect_done s request a file h1 h2 hd]
        simp only [replies_append, replies, hrep.1, Fds.closeUsed, replies_closeFiles,
          List.append_nil]

/-- Witness of `one_upgrade_in_flight`: two requests arrive during an attempt
that ends with the successor reporting ready before the timer would fire. -/
theorem one_upgrade_in_flight_witness :
    replies (runSelect
        ⟨⟨⟨[], [("listenertcp:tcp::80", some 5)], false⟩, ⟨DefaultUpgradeTimeout, "", false⟩,
          none, true, true, false, []⟩, false, false, .selecting⟩
        (.upgrade 1 ⟨[("listenertcp:tcp::80", some 5)],
          ⟨.ok (20, 21), .ok (22, 23), .ok 4711, "srv"⟩, some 42,
          [.request 2, .request 3, .ready, .timeout]⟩)).2
      = [(2, some "upgrade in progress"), (3, some "upgrade in progress"), (1, none)] ∧
    ∃ result,
      (Current.doUpgrade ⟨⟨[], [("listenertcp:tcp::80", some 5)], false⟩,
          ⟨DefaultUpgradeTimeout, "", false⟩, none, true, true, false, []⟩
        ⟨[("listenertcp:tcp::80", some 5)], ⟨.ok (20, 21), .ok (22, 23), .ok 4711, "srv"⟩,
          some 42, [.request 2, .request 3, .ready, .timeout]⟩).1 = some result ∧
      replies (runSelect
          ⟨⟨⟨[], [("listenertcp:tcp::80", some 5)], false⟩, ⟨DefaultUpgradeTimeout, "", false⟩,
            none, true, true, false, []⟩, false, false, .selecting⟩
          (.upgrade 1 ⟨[("listenertcp:tcp::80", some 5)],
            ⟨.ok (20, 21), .ok (22, 23), .ok 4711, "srv"⟩, some 42,
            [.request 2, .request 3, .ready, .timeout]⟩)).2
        = (Current.takenInUpgrade ⟨⟨[], [("listenertcp:tcp::80", some 5)], false⟩,
              ⟨DefaultUpgradeTimeout, "", false⟩, none, true, true, false, []⟩
            ⟨[("listenertcp:tcp::80", some 5)], ⟨.ok (20, 21), .ok (22, 23), .ok 4711, "srv"⟩,
              some 42, [.request 2, .request 3, .ready, .timeout]⟩).map
            (fun r => (r, some "upgrade in progress"))
          ++ [(1, match result with
              | .error err => some err
              | .ok _ => none)] :=
  ⟨by decide,
    (one_upgrade_in_flight
      ⟨⟨⟨[], [("listenertcp:tcp::80", some 5)], false⟩, ⟨DefaultUpgradeTimeout, "", false⟩,
        none, true, true, false, []⟩, false, false, .selecting⟩ 1
      ⟨[("listenertcp:tcp::80", some 5)], ⟨.ok (20, 21), .ok (22, 23), .ok 4711, "srv"⟩, some 42,
        [.request 2, .request 3, .ready, .timeout]⟩
      ⟨4711, [], "", some 20, some 23⟩ (some (some 23)) [2, 3] [.ready]).2.2.2.2 rfl rfl
      (by decide)⟩


theorem runSelect_ready_frame (s : RunState) (e : RunEvent) :
    (runSelect s e).1.c.readyOnce = s.c.readyOnce ∧ (runSelect s e).1.c.readyC = s.c.readyC ∧
      (runSelect s e).1.c.fds.inherited = s.c.fds.inherited ∧
      (runSelect s e).1.c.opts = s.c.opts := by
  cases e with
  | parentExited =>
    simp only [runSelect]
    repeat' split
    all_goals exact ⟨rfl, rfl, rfl, rfl⟩
  | currentReady =>
    simp only [runSelect]
    split
    all_goals exact ⟨rfl, rfl, rfl, rfl⟩
  | exitC =>
    simp only [runSelect]
    split
    all_goals exact ⟨rfl, rfl, rfl, rfl⟩
  | upgrade request a =>
    simp only [runSelect]
    repeat' split
    all_goals exact ⟨rfl, rfl, rfl, rfl⟩

theorem FdsOp.apply_inherited_nil (f : Fds) (op : FdsOp) (h : f.inherited = []) :
    (FdsOp.apply f op).inherited = [] := by
  have hdis : f.Disjoint := by
    intro k hk
    rw [h] at hk
    simp [GoMap.keys] at hk
  have hsub := (FdsOp.apply_spec f op hdis).2
  rw [h] at hsub
  cases hi : (FdsOp.apply f op).inherited with
  | nil => rfl
  | cons e rest =>
    have := hsub e.1 (by rw [hi]; simp [GoMap.keys])
    simp [GoMap.keys] at this

/-- Once `readyOnce` has run, `inherited` is empty and the readiness latch is closed. -/
theorem step_readyOnce (s : RunState) (a : Action)
    (h : s.c.readyOnce = true → s.c.fds.inherited = [] ∧ s.c.readyC = true) :
    (step s a).1.c.readyOnce = true →
      (step s a).1.c.fds.inherited = [] ∧ (step s a).1.c.readyC = true := by
  cases a with
  | select e =>
    simp only [step]
    split
    · obtain ⟨h1, h2, h3, _⟩ := runSelect_ready_frame s e
      rw [h1, h2, h3]
      exact h
    · exact h
  | callReady sys =>
    simp only [step, Current.Ready]
    by_cases ho : s.c.readyOnce = true
    · simp only [ho, if_true]
      repeat' split
      all_goals exact fun _ => h ho
    · simp only [ho, Bool.false_eq_true, if_false, Fds.closeInherited]
      repeat' split
      all_goals exact fun _ => ⟨rfl, rfl⟩
  | parentGone => exact h
  | fds op =>
    intro ho
    exact ⟨FdsOp.apply_inherited_nil _ op (h ho).1, (h ho).2⟩

theorem exec_readyOnce (acts : List Action) (s : RunState)
    (h : s.c.readyOnce = true → s.c.fds.inherited = [] ∧ s.c.readyC = true) :
    (exec s acts).1.c.readyOnce = true →
      (exec s acts).1.c.fds.inherited = [] ∧ (exec s acts).1.c.readyC = true := by
  induction acts generalizing s with
  | nil => exact h
  | cons a rest ih => exact ih _ (step_readyOnce s a h)

theorem New_readyOnce (opts : Options) (initialWD : String) (gob : Gob) (sys : FindSys)
    (c : Current) (tr : List Effect) (hnew : New opts false initialWD gob sys = (.ok c, tr)) :
    c.readyOnce = false := by
  unfold New at hnew
  simp only [Bool.false_eq_true, if_false] at hnew
  split at hnew
  · simp at hnew
  · split at hnew
    · simp at hnew
    · simp only [Prod.mk.injEq, Except.ok.injEq] at hnew
      rw [← hnew.1]


/-- C10: for the controller `c` reached from `New` by any actions: when a PID
file is configured and writing it fails with `e`, `Ready` returns "tableflip:
can't write PID file" wrapping `e`; its effects are, on the first call, closing
the inherited files and the readiness latch, and then only the attempt to write
the PID file (no write to the readiness pipe and no close of it); afterwards
`inherited` is empty and the latch is closed.  When no PID file is configured
or the write succeeds, `Ready` returns nil on a root process, and on a
successor it writes the byte 42 to the readiness pipe, closes the pipe and
returns nil or the error of that write, wrapped. -/
theorem ready_order (opts : Options) (initialWD : String) (gob : Gob) (fsys : FindSys)
    (c0 : Current) (tr0 : List Effect)
    (hnew : New opts false initialWD gob fsys = (.ok c0, tr0)) (acts : List Action)
    (c : Current) (hc : c = (exec c0.runInit acts).1.c) (sys : ReadySys) :
    (∀ e, c.opts.PIDFile ≠ "" → writePIDFile c.opts.PIDFile sys.pid = some e →
      (c.Ready sys).1 = some (wrap e "tableflip: can't write PID file") ∧
      (c.Ready sys).2.2
        = (if c.readyOnce then []
            else c.fds.inherited.map (fun x => Effect.closeFile x.2) ++ [Effect.closeReadyC])
          ++ [Effect.writePID c.opts.PIDFile] ∧
      (c.Ready sys).2.1.fds.inherited = [] ∧ (c.Ready sys).2.1.readyC = true) ∧
    ((c.opts.PIDFile = "" ∨ writePIDFile c.opts.PIDFile sys.pid = none) →
      (c.parent = none → (c.Ready sys).1 = none) ∧
      ∀ ps, c.parent = some ps →
        (c.Ready sys).1 = sys.write.map (fun e => wrap e "can't notify parent process") ∧
        ∃ before, (c.Ready sys).2.2
          = before ++ [Effect.write ps.readyPipeWrite [42],
              Effect.closeFile ps.readyPipeWrite]) := by
  have hinv : c.readyOnce = true → c.fds.inherited = [] ∧ c.readyC = true := by
    rw [hc]
    refine exec_readyOnce acts _ (fun h => ?_)
    rw [show (Current.runInit c0).c = c0 from rfl, New_readyOnce _ _ _ _ _ _ hnew] at h
    exact absurd h (by decide)
  clear hc hnew
  refine ⟨fun e hp he => ?_, fun hp => ⟨fun hpar => ?_, fun ps hpar => ?_⟩⟩
  · have hp2 : (c.opts.PIDFile != "") = true := by simpa using hp
    by_cases ho : c.readyOnce = true
    · simp [Current.Ready, ho, hp2, he, hinv ho]
    · simp only [Bool.not_eq_true] at ho
      simp [Current.Ready, ho, hp2, he, Fds.closeInherited]
  · by_cases ho : c.readyOnce = true
    · rcases hp with hp | hp
      · simp [Current.Ready, ho, hp, hpar]
      · by_cases hq : c.opts.PIDFile = ""
        · simp [Current.Ready, ho, hq, hpar]
        · have hp2 : (c.opts.PIDFile != "") = true := by simpa using hq
          simp [Current.Ready, ho, hp2, hp, hpar]
    · simp only [Bool.not_eq_true] at ho
      rcases hp with hp | hp
      · simp [Current.Ready, ho, hp, hpar]
      · by_cases hq : c.opts.PIDFile = ""
        · simp [Current.Ready, ho, hq, hpar]
        · have hp2 : (c.opts.PIDFile != "") = true := by simpa using hq
          simp [Current.Ready, ho, hp2, hp, hpar]
  · have hsend : ∀ w, (ps.sendReady w).1 = w.map (fun e => wrap e "can't notify parent process")
        ∧ (ps.sendReady w).2 = [Effect.write ps.readyPipeWrite [42],
            Effect.closeFile ps.readyPipeWrite] := by
      intro w
      cases w <;> exact ⟨rfl, rfl⟩
    have hpid : (if (c.opts.PIDFile != "") = true
        then (writePIDFile c.opts.PIDFile sys.pid, [Effect.writePID c.opts.PIDFile])
        else (none, [])).1 = none := by
      rcases hp with hp | hp
      · simp [hp]
      · split
        · exact hp
        · rfl
    by_cases ho : c.readyOnce = true
    · simp only [Current.Ready, ho, if_true, hpid, hpar, (hsend sys.write).1, (hsend sys.write).2]
      exact ⟨trivial, _, rfl⟩
    · simp only [Bool.not_eq_true] at ho
      simp only [Current.Ready, ho, Bool.false_eq_true, if_false, hpid, hpar,
        (hsend sys.write).1, (hsend sys.write).2]
      exact ⟨trivial, _, rfl⟩

/-- Witness of `ready_order`: a successor that claimed nothing calls `Ready`
with a PID file whose directory cannot be written. -/
theorem ready_order_witness :
    Current.Ready ⟨⟨[("listenertcp:tcp::80", some 5)], [], false⟩,
        ⟨DefaultUpgradeTimeout, "/run/srv.pid", false⟩, some ⟨some 3, false⟩, false, false, false,
        []⟩ ⟨⟨"/srv", some "permission denied", none, none⟩, none⟩
      = (some "tableflip: can't write PID file: permission denied",
          ⟨⟨[], [], false⟩, ⟨DefaultUpgradeTimeout, "/run/srv.pid", false⟩, some ⟨some 3, false⟩,
            true, true, false, []⟩,
          [Effect.closeFile (some 5), Effect.closeReadyC, Effect.writePID "/run/srv.pid"]) ∧
    (Current.Ready ⟨⟨[("listenertcp:tcp::80", some 5)], [], false⟩,
        ⟨DefaultUpgradeTimeout, "/run/srv.pid", false⟩, some ⟨some 3, false⟩, false, false, false,
        []⟩ ⟨⟨"/srv", some "permission denied", none, none⟩, none⟩).1
      = some (wrap "permission denied" "tableflip: can't write PID file") :=
  ⟨by decide,
    ((ready_order ⟨0, "/run/srv.pid", false⟩ "/srv" lengthPrefixed
      ⟨"yes", lengthPrefixed.encode ["listenertcp:tcp::80"]⟩
      ⟨⟨[("listenertcp:tcp::80", some 5)], [], false⟩,
        ⟨DefaultUpgradeTimeout, "/run/srv.pid", false⟩, some ⟨some 3, false⟩, false, false, false,
        []⟩ [.closeOnExec 5] rfl []
      ⟨⟨[("listenertcp:tcp::80", some 5)], [], false⟩,
        ⟨DefaultUpgradeTimeout, "/run/srv.pid", false⟩, some ⟨some 3, false⟩, false, false, false,
        []⟩ rfl ⟨⟨"/srv", some "permission denied", none, none⟩, none⟩).1
      "permission denied" (by decide) (by decide)).1⟩

/-! ## Collisions in `used` -/

theorem Fds.dupFd_ok (f : Fds) (fd : Nat) (name : String) (sys : DupSys) (v : FilePtr)
    (h : f.dupFd fd name sys = .ok v) : ∃ dupfd, sys.fcntl = .ok dupfd ∧ v = NewFile dupfd := by
  unfold Fds.dupFd at h
  split at h
  · simp at h
  · rename_i dupfd hfc
    refine ⟨dupfd, hfc, ?_⟩
    repeat' split at h
    all_goals first
      | exact (Except.ok.inj h).symm
      | simp at h

theorem Fds.ListenTCP_fresh (f : Fds) (network addr : String) (sys : ListenSys)
    (hnone : f.inherited.file (listenTCPKey network addr) = none) :
    ((f.ListenTCP network addr sys).fds = f ∧
      ∀ ln, (f.ListenTCP network addr sys).result ≠ .ok ln) ∨
    ∃ ln dupfd, (f.ListenTCP network addr sys).result = .ok ln ∧ sys.dup.fcntl = .ok dupfd ∧
      (f.ListenTCP network addr sys).fds = f.moved (listenTCPKey network addr) (NewFile dupfd) := by
  unfold Fds.ListenTCP
  simp only [hnone]
  cases hl : sys.listen with
  | error e => exact Or.inl ⟨rfl, by simp⟩
  | ok r =>
    obtain ⟨ln, lfd⟩ := r
    cases hd : f.dupFd lfd (listenTCPKey network addr) sys.dup with
    | error e => exact Or.inl (by simp [Fds.addConn, hd])
    | ok v =>
      obtain ⟨dupfd, hfc, hv⟩ := Fds.dupFd_ok _ _ _ _ _ hd
      exact Or.inr ⟨ln, dupfd, by simp [Fds.addConn, hd], hfc,
        by simp [Fds.addConn, hd, hv, Fds.moved]⟩

theorem Fds.ListenUDP_fresh (f : Fds) (network addr : String) (sys : ListenSys)
    (hnone : f.inherited.file (listenUDPKey network addr) = none) :
    ((f.ListenUDP network addr sys).fds = f ∧
      ∀ ln, (f.ListenUDP network addr sys).result ≠ .ok ln) ∨
    ∃ ln dupfd, (f.ListenUDP network addr sys).result = .ok ln ∧ sys.dup.fcntl = .ok dupfd ∧
      (f.ListenUDP network addr sys).fds = f.moved (listenUDPKey network addr) (NewFile dupfd) := by
  unfold Fds.ListenUDP
  simp only [hnone]
  cases hl : sys.listen with
  | error e => exact Or.inl ⟨rfl, by simp⟩
  | ok r =>
    obtain ⟨ln, lfd⟩ := r
    cases hd : f.dupFd lfd (listenUDPKey network addr) sys.dup with
    | error e => exact Or.inl (by simp [Fds.addConn, hd])
    | ok v =>
      obtain ⟨dupfd, hfc, hv⟩ := Fds.dupFd_ok _ _ _ _ _ hd
      exact Or.inr ⟨ln, dupfd, by simp [Fds.addConn, hd], hfc,
        by simp [Fds.addConn, hd, hv, Fds.moved]⟩

theorem Fds.ConnectTCP_fresh (f : Fds) (network addr key : String) (sys : ConnectSys)
    (hnone : f.inherited.get (connectTCPKey network addr key) = none) :
    ((f.ConnectTCP network addr key sys).fds = f ∧
      ∀ conn, (f.ConnectTCP network addr key sys).result ≠ .ok conn) ∨
    ∃ conn dupfd, (f.ConnectTCP network addr key sys).result = .ok conn ∧
      sys.dup.fcntl = .ok dupfd ∧
      (f.ConnectTCP network addr key sys).fds
        = f.moved (connectTCPKey network addr key) (NewFile dupfd) := by
  unfold Fds.ConnectTCP
  simp only [hnone]
  cases hl : sys.newconn with
  | error e => exact Or.inl ⟨rfl, by simp⟩
  | ok r =>
    obtain ⟨conn, fd⟩ := r
    cases hd : f.dupFd fd (connectTCPKey network addr key) sys.dup with
    | error e => exact Or.inl (by simp [Fds.addConn, hd])
    | ok v =>
      obtain ⟨dupfd, hfc, hv⟩ := Fds.dupFd_ok _ _ _ _ _ hd
      exact Or.inr ⟨conn, dupfd, by simp [Fds.addConn, hd], hfc,
        by simp [Fds.addConn, hd, hv, Fds.moved]⟩

theorem GoMap.keys_delete_nodup {α : Type} (m : GoMap α) (k : String) (h : m.keys.Nodup) :
    (GoMap.delete m k).keys.Nodup :=
  List.Nodup.sublist (List.Sublist.map Prod.fst (List.filter_sublist m)) h

theorem GoMap.keys_set_nodup {α : Type} (m : GoMap α) (k : String) (v : α) (h : m.keys.Nodup) :
    (GoMap.set m k v).keys.Nodup :=
  List.nodup_cons.2 ⟨GoMap.not_mem_keys_delete m k, GoMap.keys_delete_nodup m k h⟩

/-- After `delete(f.inherited, key); f.used[key] = file` the map `used` has one
entry under `key`, the file just stored, and its other entries are as before. -/
theorem Fds.moved_replaces (f : Fds) (key : String) (v : FilePtr) (h : f.used.keys.Nodup) :
    (f.moved key v).used.get key = some v ∧ (f.moved key v).used.keys.Nodup ∧
      ∀ k, k ≠ key → (f.moved key v).used.get k = f.used.get k :=
  ⟨GoMap.get_set_self _ _ _, GoMap.keys_set_nodup _ _ _ h,
    fun _ hk => GoMap.get_set_ne _ _ _ _ hk⟩

theorem FdsOp.apply_used_nodup (f : Fds) (op : FdsOp) (h : f.used.keys.Nodup) :
    (FdsOp.apply f op).used.keys.Nodup := by
  cases op with
  | listenTCP network addr sys =>
    simp only [FdsOp.apply]
    rcases Fds.ListenTCP_shape f network addr sys with ⟨h1, _⟩ | ⟨v, h1⟩ | ⟨v, w, h1⟩
    · rw [h1]; exact h
    · rw [h1]; exact (Fds.moved_replaces f _ v h).2.1
    · rw [h1]; exact (Fds.moved_replaces _ _ w (Fds.moved_replaces f _ v h).2.1).2.1
  | listenUDP network addr sys =>
    simp only [FdsOp.apply]
    rcases Fds.ListenUDP_shape f network addr sys with ⟨h1, _⟩ | ⟨v, h1⟩ | ⟨v, w, h1⟩
    · rw [h1]; exact h
    · rw [h1]; exact (Fds.moved_replaces f _ v h).2.1
    · rw [h1]; exact (Fds.moved_replaces _ _ w (Fds.moved_replaces f _ v h).2.1).2.1
  | connectTCP network addr key sys =>
    simp only [FdsOp.apply]
    rcases Fds.ConnectTCP_shape f network addr key sys with ⟨h1, _⟩ | ⟨v, h1⟩
    · rw [h1]; exact h
    · rw [h1]; exact (Fds.moved_replaces f _ v h).2.1
  | copy => exact h
  | closeInherited => exact h
  | closeUsed => simp [FdsOp.apply, Fds.closeUsed, GoMap.keys]

theorem Fds.after_used_nodup (ops : List FdsOp) (f : Fds) (h : f.used.keys.Nodup) :
    (f.after ops).used.keys.Nodup := by
  induction ops generalizing f with
  | nil => exact h
  | cons op ops ih => exact ih _ (FdsOp.apply_used_nodup f op h)

/-- A key of `used` in a registry whose maps are disjoint has no entry in `inherited`. -/
theorem Fds.inherited_get_of_used (f : Fds) (h : f.Disjoint) (key : String)
    (hk : key ∈ f.used.keys) :
    f.inherited.get key = none ∧ f.inherited.file key = none := by
  have hnot : key ∉ f.inherited.keys := fun hin => h key ⟨hin, hk⟩
  rw [GoMap.mem_keys_iff] at hnot
  have hnone : f.inherited.get key = none := by
    cases hg : f.inherited.get key with
    | none => rfl
    | some v => rw [hg] at hnot; exact absurd rfl hnot
  exact ⟨hnone, by simp [GoMap.file, hnone]⟩

theorem New_used (opts : Options) (initialWD : String) (gob : Gob) (sys : FindSys)
    (c : Current) (tr : List Effect) (hnew : New opts false initialWD gob sys = (.ok c, tr)) :
    c.fds.used = [] := by
  unfold New at hnew
  simp only [Bool.false_eq_true, if_false] at hnew
  split at hnew
  · simp at hnew
  · split at hnew
    · simp at hnew
    · simp only [Prod.mk.injEq, Except.ok.injEq] at hnew
      rw [← hnew.1]

/-- C11 as stated fails: on a root process a listener on "127.0.0.1:0" is
registered in `used` with file 8; a second ListenTCP on the same network and
address computes the same key, succeeds, and stores file 10 under it, so the
entry is overwritten and `closeUsed` afterwards does not close file 8. -/
theorem used_collision_counterexample :
    (New ⟨0, "", false⟩ false "/srv" lengthPrefixed ⟨"", []⟩).1
      = .ok ⟨⟨[], [], false⟩, ⟨DefaultUpgradeTimeout, "", false⟩, none, false, false, false,
          []⟩ ∧
    (Fds.mk [] [] false).after
        [.listenTCP "tcp" "127.0.0.1:0" ⟨.ok none, .ok (1, 7), ⟨.ok 8, none, none⟩⟩]
      = ⟨[], [("listenertcp:tcp:127.0.0.1:0", some 8)], false⟩ ∧
    (Fds.ListenTCP ⟨[], [("listenertcp:tcp:127.0.0.1:0", some 8)], false⟩ "tcp" "127.0.0.1:0"
        ⟨.ok none, .ok (2, 9), ⟨.ok 10, none, none⟩⟩).result = .ok 2 ∧
    (Fds.ListenTCP ⟨[], [("listenertcp:tcp:127.0.0.1:0", some 8)], false⟩ "tcp" "127.0.0.1:0"
        ⟨.ok none, .ok (2, 9), ⟨.ok 10, none, none⟩⟩).fds.used
      = [("listenertcp:tcp:127.0.0.1:0", some 10)] ∧
    Effect.closeFile (some 8) ∉
      (Fds.ListenTCP ⟨[], [("listenertcp:tcp:127.0.0.1:0", some 8)], false⟩ "tcp" "127.0.0.1:0"
        ⟨.ok none, .ok (2, 9), ⟨.ok 10, none, none⟩⟩).fds.closeUsed.2 := by
  refine ⟨rfl, by decide, rfl, by decide, by decide⟩

/-- C11 (amended): in every registry state `f` reached from `New`, `used` has
at most one entry per key, and when a key is already present in `used`, a
ListenTCP, ListenUDP or ConnectTCP call that computes the same key either
fails and leaves the registry as it was, or succeeds and replaces the entry:
`used` then holds under the key the file made of the duplicated descriptor, has
still one entry per key, and its other entries are unchanged.  `closeUsed`
closes exactly the files that are in `used` when it runs. -/
theorem used_collision (opts : Options) (initialWD : String) (gob : Gob) (fsys : FindSys)
    (c : Current) (tr : List Effect)
    (hnew : New opts false initialWD gob fsys = (.ok c, tr)) (ops : List FdsOp) (f : Fds)
    (hf : f = c.fds.after ops) (network addr key : String) (tsys usys : ListenSys)
    (csys : ConnectSys) :
    f.used.keys.Nodup ∧
    (listenTCPKey network addr ∈ f.used.keys →
      ((∀ ln, (f.ListenTCP network addr tsys).result ≠ .ok ln) →
        (f.ListenTCP network addr tsys).fds = f) ∧
      ∀ ln, (f.ListenTCP network addr tsys).result = .ok ln →
        ∃ dupfd, tsys.dup.fcntl = .ok dupfd ∧
          (f.ListenTCP network addr tsys).fds.used.get (listenTCPKey network addr)
            = some (NewFile dupfd) ∧
          (f.ListenTCP network addr tsys).fds.used.keys.Nodup ∧
          ∀ k, k ≠ listenTCPKey network addr →
            (f.ListenTCP network addr tsys).fds.used.get k = f.used.get k) ∧
    (listenUDPKey network addr ∈ f.used.keys →
      ((∀ ln, (f.ListenUDP network addr usys).result ≠ .ok ln) →
        (f.ListenUDP network addr usys).fds = f) ∧
      ∀ ln, (f.ListenUDP network addr usys).result = .ok ln →
        ∃ dupfd, usys.dup.fcntl = .ok dupfd ∧
          (f.ListenUDP network addr usys).fds.used.get (listenUDPKey network addr)
            = some (NewFile dupfd) ∧
          (f.ListenUDP network addr usys).fds.used.keys.Nodup ∧
          ∀ k, k ≠ listenUDPKey network addr →
            (f.ListenUDP network addr usys).fds.used.get k = f.used.get k) ∧
    (connectTCPKey network addr key ∈ f.used.keys →
      ((∀ conn, (f.ConnectTCP network addr key csys).result ≠ .ok conn) →
        (f.ConnectTCP network addr key csys).fds = f) ∧
      ∀ conn, (f.ConnectTCP network addr key csys).result = .ok conn →
        ∃ dupfd, csys.dup.fcntl = .ok dupfd ∧
          (f.ConnectTCP network addr key csys).fds.used.get (connectTCPKey network addr key)
            = some (NewFile dupfd) ∧
          (f.ConnectTCP network addr key csys).fds.used.keys.Nodup ∧
          ∀ k, k ≠ connectTCPKey network addr key →
            (f.ConnectTCP network addr key csys).fds.used.get k = f.used.get k) ∧
    ∀ p, Effect.closeFile p ∈ f.closeUsed.2 ↔ p ∈ f.used.map Prod.snd := by
  have hused := New_used _ _ _ _ _ _ hnew
  have hdis0 : c.fds.Disjoint := by
    intro k hk
    rw [hused] at hk
    simp [GoMap.keys] at hk
  have hnd : f.used.keys.Nodup := by
    rw [hf]
    exact Fds.after_used_nodup ops _ (by rw [hused]; simp [GoMap.keys])
  have hdis : f.Disjoint := by
    rw [hf]
    exact Fds.after_disjoint ops _ hdis0
  clear hf hnew
  refine ⟨hnd, fun hk => ?_, fun hk => ?_, fun hk => ?_, fun p => ?_⟩
  · rcases Fds.ListenTCP_fresh f network addr tsys (Fds.inherited_get_of_used f hdis _ hk).2
      with ⟨h1, h2⟩ | ⟨ln, dupfd, h1, h2, h3⟩
    · exact ⟨fun _ => h1, fun ln h => absurd h (h2 ln)⟩
    · refine ⟨fun h => absurd h1 (h ln), fun _ _ => ⟨dupfd, h2, ?_⟩⟩
      rw [h3]
      exact Fds.moved_replaces f _ _ hnd
  · rcases Fds.ListenUDP_fresh f network addr usys (Fds.inherited_get_of_used f hdis _ hk).2
      with ⟨h1, h2⟩ | ⟨ln, dupfd, h1, h2, h3⟩
    · exact ⟨fun _ => h1, fun ln h => absurd h (h2 ln)⟩
    · refine ⟨fun h => absurd h1 (h ln), fun _ _ => ⟨dupfd, h2, ?_⟩⟩
      rw [h3]
      exact Fds.moved_replaces f _ _ hnd
  · rcases Fds.ConnectTCP_fresh f network addr key csys
        (Fds.inherited_get_of_used f hdis _ hk).1
      with ⟨h1, h2⟩ | ⟨conn, dupfd, h1, h2, h3⟩
    · exact ⟨fun _ => h1, fun conn h => absurd h (h2 conn)⟩
    · refine ⟨fun h => absurd h1 (h conn), fun _ _ => ⟨dupfd, h2, ?_⟩⟩
      rw [h3]
      exact Fds.moved_replaces f _ _ hnd
  · simp only [Fds.closeUsed, List.mem_map, Effect.closeFile.injEq]

/-- Witness of `used_collision`: the second ListenTCP on "127.0.0.1:0". -/
theorem used_collision_witness :
    "listenertcp:tcp:127.0.0.1:0"
      ∈ GoMap.keys [("listenertcp:tcp:127.0.0.1:0", (some 8 : FilePtr))] ∧
    ∃ dupfd, (Except.ok 10 : Except String Nat) = .ok dupfd ∧
      (Fds.ListenTCP ⟨[], [("listenertcp:tcp:127.0.0.1:0", some 8)], false⟩ "tcp" "127.0.0.1:0"
          ⟨.ok none, .ok (2, 9), ⟨.ok 10, none, none⟩⟩).fds.used.get
          (listenTCPKey "tcp" "127.0.0.1:0") = some (NewFile dupfd) ∧
      (Fds.ListenTCP ⟨[], [("listenertcp:tcp:127.0.0.1:0", some 8)], false⟩ "tcp" "127.0.0.1:0"
          ⟨.ok none, .ok (2, 9), ⟨.ok 10, none, none⟩⟩).fds.used.keys.Nodup ∧
      ∀ k, k ≠ listenTCPKey "tcp" "127.0.0.1:0" →
        (Fds.ListenTCP ⟨[], [("listenertcp:tcp:127.0.0.1:0", some 8)], false⟩ "tcp"
            "127.0.0.1:0" ⟨.ok none, .ok (2, 9), ⟨.ok 10, none, none⟩⟩).fds.used.get k
          = GoMap.get [("listenertcp:tcp:127.0.0.1:0", (some 8 : FilePtr))] k :=
  ⟨by decide,
    ((used_collision ⟨0, "", false⟩ "/srv" lengthPrefixed ⟨"", []⟩
      ⟨⟨[], [], false⟩, ⟨DefaultUpgradeTimeout, "", false⟩, none, false, false, false, []⟩ []
      rfl [.listenTCP "tcp" "127.0.0.1:0" ⟨.ok none, .ok (1, 7), ⟨.ok 8, none, none⟩⟩]
      ⟨[], [("listenertcp:tcp:127.0.0.1:0", some 8)], false⟩ (by decide) "tcp" "127.0.0.1:0"
      "primary" ⟨.ok none, .ok (2, 9), ⟨.ok 10, none, none⟩⟩
      ⟨.ok none, .ok (2, 9), ⟨.ok 10, none, none⟩⟩
      ⟨.ok 2, .ok (2, 9), ⟨.ok 10, none, none⟩⟩).2.1 (by decide)).2 2 rfl⟩


end Tableflip
